import Mathlib

/-!
Verification of the filesystem-scan core of `repair/scan.c` (xfsprogs).

This file gives a shallow embedding of the scan routines of
`src/repair/scan.c` and proves properties of the embedded code.
Conventions used throughout:

* Machine integers (`xfs_agblock_t`, `xfs_extlen_t`, counters, …) are
  modelled as `Nat`.  None of the properties proved here depend on
  wrap-around behaviour of the 32/64-bit counters.
* The block-state map of a single allocation group is a total function
  `Nat → XRState`.  The map operations (`get_bmap`, `set_bmap`,
  `get_bmap_ext`, `set_bmap_ext`) live in `repair/incore.c`, which is not
  part of the sources; they are modelled from the spec (§4.1).
* Warning emission (`do_warn`) is modelled by counting: every `do_warn`
  call of the embedded code increments a `warns` counter.  `do_error` and
  `do_abort` terminate the process and are modelled explicitly where a
  claim depends on them.
* Disk reads performed by the tree walkers are modelled as total
  functions from AG block numbers to block contents; a block carries both
  the leaf ("records") and the interior ("pointers") interpretation of
  its payload, and the walker picks the interpretation according to the
  expected level, exactly as the C code interprets the same bytes.
  B+tree walks recurse on the declared level, as `scan_sbtree`
  does, so cyclic corrupt images terminate the same way they do in C.
-/

/-- Block states of the block-state map, `XR_E_*` from `repair/incore.h`
(ordering as used by `scan.c`). -/
inductive XRState where
  | XR_E_UNKNOWN
  | XR_E_FREE1
  | XR_E_FREE
  | XR_E_INO
  | XR_E_FS_MAP
  | XR_E_INUSE
  | XR_E_INUSE_FS
  | XR_E_MULT
  | XR_E_BAD_STATE
deriving DecidableEq, Repr

/-- Block-state map of one allocation group: state of every AG block. -/
def Bmap : Type := Nat → XRState

/-- Modelled from the spec (§4.1): `get(ag, blk) → state` of
`repair/incore.c`, which is not under `src/`. -/
def get_bmap (m : Bmap) (b : Nat) : XRState := m b

/-- Modelled from the spec (§4.1): `set(ag, blk, state)` of
`repair/incore.c` (a single-block write; `incore.h` defines `set_bmap`
as `set_bmap_ext` with length 1). -/
def set_bmap (m : Bmap) (b : Nat) (s : XRState) : Bmap :=
  fun x => if x = b then s else m x

/-- Modelled from the spec (§4.1): `set_extent(ag, blk, len, state)` of
`repair/incore.c`: writes `state` over the blocks `[b, b+len)`. -/
def set_bmap_ext (m : Bmap) (b len : Nat) (s : XRState) : Bmap :=
  fun x => if b ≤ x ∧ x < b + len then s else m x

/-- Helper for `get_bmap_ext`: length of the maximal run of blocks of
state `s` starting at `b`, looking at most `fuel` blocks. -/
def runLenAux (m : Bmap) (s : XRState) : Nat → Nat → Nat
  | _, 0 => 0
  | b, fuel + 1 => if m b = s then 1 + runLenAux m s (b + 1) fuel else 0

/-- Modelled from the spec (§4.1): the run length returned by
`get_extent(ag, blk, end) → (state, run_length)` of `repair/incore.c`:
the extent variants coalesce equal-state neighbours, so the returned
length is the maximal equal-state run starting at `blk`, capped at
`end`.  It is at least 1 whenever `b < maxb`. -/
def runLen (m : Bmap) (b maxb : Nat) : Nat :=
  if b < maxb then 1 + runLenAux m (m b) (b + 1) (maxb - (b + 1)) else 0

/-- Modelled from the spec (§4.1): `get_extent(ag, blk, end)` returns the
state at `blk` together with the equal-state run length. -/
def get_bmap_ext (m : Bmap) (b maxb : Nat) : XRState × Nat :=
  (m b, runLen m b maxb)

/-- Magic number of the freespace-by-offset btree (`XFS_ABTB_MAGIC`,
"ABTB"; value modelled from the on-disk format headers, which are not
under `src/`). -/
def XFS_ABTB_MAGIC : Nat := 0x41425442

/-- Magic number of the freespace-by-count btree (`XFS_ABTC_MAGIC`). -/
def XFS_ABTC_MAGIC : Nat := 0x41425443

/-- CRC-enabled magic of the freespace-by-offset btree
(`XFS_ABTB_CRC_MAGIC`, "AB3B"). -/
def XFS_ABTB_CRC_MAGIC : Nat := 0x41423342

/-- CRC-enabled magic of the freespace-by-count btree
(`XFS_ABTC_CRC_MAGIC`, "AB3C"). -/
def XFS_ABTC_CRC_MAGIC : Nat := 0x41423343

/-- Test used by `scan_allocbt` (scan.c:642-643) to recognise the
by-offset (bno) tree. -/
def isBnoMagic (magic : Nat) : Bool :=
  magic = XFS_ABTB_MAGIC ∨ magic = XFS_ABTB_CRC_MAGIC

/-- Test used by `scan_allocbt` (scan.c:676-677) to recognise the
by-count (cnt) tree. -/
def isCntMagic (magic : Nat) : Bool :=
  magic = XFS_ABTC_MAGIC ∨ magic = XFS_ABTC_CRC_MAGIC

/-- Fuel-indexed body of the per-record block loop of `scan_allocbt`
(scan.c:665-689):
`for ( ; b < end; b += blen) { state = get_bmap_ext(agno, b, end, &blen); switch ... }`.
The fuel only serves termination; `scan_allocbt_block_loop` supplies
`e - b`, which is enough because every iteration advances `b` by
`blen ≥ 1`.  Returns the updated map and warning count. -/
def scan_allocbt_block_loopF (magic : Nat) : Nat → Bmap → Nat → Nat → Nat → Bmap × Nat
  | 0, m, _, _, w => (m, w)
  | fuel + 1, m, b, e, w =>
    if b < e then
      let blen := (get_bmap_ext m b e).2
      match (get_bmap_ext m b e).1 with
      | .XR_E_UNKNOWN =>
        -- scan.c:668-669: only a single block is set (set_bmap writes
        -- one block) while the loop then skips the whole run.
        scan_allocbt_block_loopF magic fuel (set_bmap m b .XR_E_FREE1) (b + blen) e w
      | .XR_E_FREE1 =>
        if isCntMagic magic then
          -- scan.c:676-680: the by-count tree confirms the whole run.
          scan_allocbt_block_loopF magic fuel (set_bmap_ext m b blen .XR_E_FREE) (b + blen) e w
        else
          -- falls through to the default case: warn, no state change.
          scan_allocbt_block_loopF magic fuel m (b + blen) e (w + 1)
      | _ =>
        -- scan.c:682-688: do_warn("... multiply claimed ..."), no set_bmap.
        scan_allocbt_block_loopF magic fuel m (b + blen) e (w + 1)
    else (m, w)

/-- Per-record block loop of `scan_allocbt` (scan.c:665-689), entered at
the record's start block `b` with record end `e`. -/
def scan_allocbt_block_loop (magic : Nat) (m : Bmap) (b e w : Nat) : Bmap × Nat :=
  scan_allocbt_block_loopF magic (e - b) m b e w


/-- Modelled from the spec (§4.5, "out-of-range ... overruns the AG"):
`verify_agbno` of `repair/dinode.c` (not under `src/`): an AG block
number is valid when it lies below the AG size in blocks. -/
def verify_agbno (agSize b : Nat) : Bool := b < agSize

/-- Geometry and limits read from the mount structure (`mp->m_alloc_mxr`
etc.), parameters of the embedded scan. -/
structure MpAlloc where
  agSize : Nat
  m_alloc_mxr0 : Nat
  m_alloc_mnr0 : Nat
  m_alloc_mxr1 : Nat
  m_alloc_mnr1 : Nat
  hasCrc : Bool
deriving DecidableEq

/-- One freespace btree leaf record (`xfs_alloc_rec_t`), already
byte-swapped. -/
structure AllocRec where
  ar_startblock : Nat
  ar_blockcount : Nat
deriving DecidableEq

/-- Accumulated per-AG counters (`struct aghdr_cnts`, scan.c:39-49),
restricted to the fields touched by the freespace scan. -/
structure AghdrCnts where
  agffreeblks : Nat := 0
  agflongest : Nat := 0
  agfbtreeblks : Nat := 0
  fdblocks : Nat := 0
deriving DecidableEq

/-- State threaded through the embedded scan: the AG block-state map,
the per-AG counters and the number of warnings emitted so far. -/
structure ScanSt where
  m : Bmap
  cnts : AghdrCnts
  warns : Nat

/-- Effect of one `do_warn` call. -/
def addWarn (st : ScanSt) : ScanSt := { st with warns := st.warns + 1 }

/-- Record-count clamping of `scan_allocbt` (scan.c:602-609, 699-706):
returns the record count actually iterated and the number of header
errors charged. -/
def clampNr (mxr mnr : Nat) (isroot : Bool) (nr : Nat) : Nat × Nat :=
  let p := if nr > mxr then (mxr, 1) else (nr, 0)
  if isroot = false ∧ p.1 < mnr then (mnr, p.2 + 1) else p

/-- Loop state of the leaf-record loop of `scan_allocbt`
(scan.c:542-543, 621-690): `lastblock`/`lastcount` carry the ordering
checks. -/
structure RecLoopSt where
  st : ScanSt
  lastblock : Nat
  lastcount : Nat

/-- Ordering check and by-count accounting of one leaf record
(scan.c:642-663): the by-offset tree checks monotonically increasing
start blocks; the by-count tree adds the length to `fdblocks` and
`agffreeblks`, updates `agflongest`, and checks monotonically
non-decreasing lengths. -/
def scan_allocbt_rec_order (magic : Nat) (b len : Nat) (s : RecLoopSt) : RecLoopSt :=
  if isBnoMagic magic then
    if b ≤ s.lastblock then { s with st := addWarn s.st }
    else { s with lastblock := b }
  else
    let cnts := { s.st.cnts with
      fdblocks := s.st.cnts.fdblocks + len,
      agffreeblks := s.st.cnts.agffreeblks + len,
      agflongest := max s.st.cnts.agflongest len }
    let s' := { s with st := { s.st with cnts := cnts } }
    if len < s'.lastcount then { s' with st := addWarn s'.st }
    else { s' with lastcount := len }

/-- Processing of one leaf record by `scan_allocbt` (scan.c:621-690):
start/length validation (invalid records are skipped with a warning),
the ordering/accounting step, then the per-block reconciliation loop. -/
def scan_allocbt_rec (mp : MpAlloc) (magic : Nat) (s : RecLoopSt) (r : AllocRec) : RecLoopSt :=
  let b := r.ar_startblock
  let len := r.ar_blockcount
  let e := b + len
  if b = 0 ∨ verify_agbno mp.agSize b = false then
    { s with st := addWarn s.st }
  else if len = 0 ∨ verify_agbno mp.agSize (e - 1) = false then
    { s with st := addWarn s.st }
  else
    let s := scan_allocbt_rec_order magic b len s
    let r' := scan_allocbt_block_loop magic s.st.m b e s.st.warns
    { s with st := { s.st with m := r'.1, warns := r'.2 } }

/-- Content of one on-disk btree block as the scan reads it.  A block
carries both interpretations of its payload: `recs` is what the code
reads at expected level 0, `ptrs` what it reads at an interior level. -/
structure AllocBlock where
  bb_magic : Nat
  bb_level : Nat
  bb_numrecs : Nat
  recs : List AllocRec
  ptrs : List Nat

/-- Device contents seen by the freespace-tree walk: block contents by
AG block number. -/
def AllocDisk : Type := Nat → AllocBlock

/-- Child iteration of the interior case of `scan_allocbt`
(scan.c:725-753): each in-range, non-zero child pointer is visited via
`scan_sbtree`, which invokes the visitor at `level - 1`. -/
def scan_allocbt_kids (mp : MpAlloc) (f : Nat → Nat → ScanSt → ScanSt) :
    List Nat → Nat → ScanSt → ScanSt
  | [], _, st => st
  | cbno :: rest, suspect, st =>
    let st := if cbno ≠ 0 ∧ verify_agbno mp.agSize cbno = true then f cbno suspect st else st
    scan_allocbt_kids mp f rest suspect st

/-- Header part of `scan_allocbt` (scan.c:560-597): magic check with
suspect bail-out, non-root `agfbtreeblks`/`fdblocks` bump, level check
with suspect bail-out, and the claim of the node's own block (only
`XR_E_UNKNOWN` may become `XR_E_FS_MAP`; anything else becomes
`XR_E_MULT` and the node is abandoned).  Returns the updated state, the
header-error count so far, and whether processing continues. -/
def scan_allocbt_hdr (magic : Nat) (blk : AllocBlock) (lvl bno suspect : Nat)
    (isroot : Bool) (st : ScanSt) : ScanSt × Nat × Bool :=
  let hdr1 : Nat := if blk.bb_magic ≠ magic then 1 else 0
  let st := if blk.bb_magic ≠ magic then addWarn st else st
  if blk.bb_magic ≠ magic ∧ suspect ≠ 0 then (st, hdr1, false)
  else
    let st := if isroot then st else
      { st with cnts := { st.cnts with
          agfbtreeblks := st.cnts.agfbtreeblks + 1,
          fdblocks := st.cnts.fdblocks + 1 } }
    let hdr2 : Nat := hdr1 + (if blk.bb_level ≠ lvl then 1 else 0)
    let st := if blk.bb_level ≠ lvl then addWarn st else st
    if blk.bb_level ≠ lvl ∧ suspect ≠ 0 then (st, hdr2, false)
    else if get_bmap st.m bno ≠ .XR_E_UNKNOWN then
      (addWarn { st with m := set_bmap st.m bno .XR_E_MULT }, hdr2, false)
    else
      ({ st with m := set_bmap st.m bno .XR_E_FS_MAP }, hdr2, true)

/-- Leaf case of `scan_allocbt` (scan.c:601-691) after the header part:
record-count clamping with its warning, then the record loop. -/
def scan_allocbt_leaf (mp : MpAlloc) (magic : Nat) (blk : AllocBlock) (isroot : Bool)
    (hdr : Nat) (st : ScanSt) : ScanSt :=
  let p := clampNr mp.m_alloc_mxr0 mp.m_alloc_mnr0 isroot blk.bb_numrecs
  let st := if hdr + p.2 ≠ 0 then addWarn st else st
  ((blk.recs.take p.1).foldl (scan_allocbt_rec mp magic)
      { st := st, lastblock := 0, lastcount := 0 }).st

/-- Embedded `scan_allocbt` (scan.c:523-754) as invoked through
`scan_sbtree`: the freespace-tree visitor at expected level `lvl` on the
block `bno`.  Interior nodes clear an inherited suspect flag when their
own header is clean, abandon the subtree when suspect and erroneous, and
recurse on each valid child pointer at `lvl - 1` (scan.c:708-753). -/
def scan_allocbt_go (mp : MpAlloc) (magic : Nat) (disk : AllocDisk) :
    Nat → Nat → Nat → Bool → ScanSt → ScanSt
  | 0, bno, suspect, isroot, st =>
    let r := scan_allocbt_hdr magic (disk bno) 0 bno suspect isroot st
    if r.2.2 then scan_allocbt_leaf mp magic (disk bno) isroot r.2.1 r.1
    else r.1
  | lvl + 1, bno, suspect, isroot, st =>
    let r := scan_allocbt_hdr magic (disk bno) (lvl + 1) bno suspect isroot st
    if r.2.2 then
      let hdrE := r.2.1 + (clampNr mp.m_alloc_mxr1 mp.m_alloc_mnr1 isroot (disk bno).bb_numrecs).2
      let st2 := if hdrE ≠ 0 then addWarn r.1 else r.1
      if hdrE ≠ 0 ∧ suspect ≠ 0 then st2
      else
        scan_allocbt_kids mp
          (fun cbno s => scan_allocbt_go mp magic disk lvl cbno s false)
          ((disk bno).ptrs.take
            (clampNr mp.m_alloc_mxr1 mp.m_alloc_mnr1 isroot (disk bno).bb_numrecs).1)
          (if hdrE ≠ 0 then suspect + 1 else if suspect ≠ 0 then 0 else suspect)
          st2
    else r.1

/-- Sum of the record lengths of a list of freespace records. -/
def sumLens (l : List AllocRec) : Nat := (l.map AllocRec.ar_blockcount).sum

/-- Child part of `fdContrib`: sum over the in-range, non-zero child
pointers actually descended into. -/
def fdContrib_kids (mp : MpAlloc) (g : Nat → Nat) : List Nat → Nat
  | [] => 0
  | cbno :: rest =>
    (if cbno ≠ 0 ∧ verify_agbno mp.agSize cbno = true then g cbno else 0) +
      fdContrib_kids mp g rest

/-- Accounting law (spec side, for the amended C2): the free-data-block
contribution of one freespace subtree rooted at `bno` with expected
level `lvl`: one per non-root block visited, plus — for the by-count
tree only — the lengths of the leaf records iterated. -/
def fdContrib (mp : MpAlloc) (magic : Nat) (disk : AllocDisk) :
    Nat → Nat → Bool → Nat
  | 0, bno, isroot =>
    let blk := disk bno
    let nr := (clampNr mp.m_alloc_mxr0 mp.m_alloc_mnr0 isroot blk.bb_numrecs).1
    (if isroot then 0 else 1) +
      (if isBnoMagic magic then 0 else sumLens (blk.recs.take nr))
  | lvl + 1, bno, isroot =>
    let blk := disk bno
    let nr := (clampNr mp.m_alloc_mxr1 mp.m_alloc_mnr1 isroot blk.bb_numrecs).1
    (if isroot then 0 else 1) +
      fdContrib_kids mp (fun c => fdContrib mp magic disk lvl c false) (blk.ptrs.take nr)

/-- Per-AG inputs of the embedded scan: AGF freelist fields, the two
freespace-tree roots with their declared level counts, the device
contents, and the stored AGF counters that `validate_agf` compares. -/
structure AgInput where
  agf_flcount : Nat
  agf_flfirst : Nat
  agf_fllast : Nat
  agflSize : Nat
  freelist : Nat → Nat
  hdrDistinct : Bool
  agflBlock : Nat
  bnoRoot : Nat
  bnoLevels : Nat
  cntRoot : Nat
  cntLevels : Nat
  disk : AllocDisk
  agf_freeblks : Nat
  agf_longest : Nat
  agf_btreeblks : Nat
  lazyCount : Bool
  noModify : Bool

/-- AGFL walk loop of `scan_freelist` (scan.c:1451-1464).  The C loop
terminates through `i == agf_fllast`; the fuel (the walk is entered with
fuel `agflSize`) covers every terminating execution of the source.
Returns the updated map, the walked count, the warning count and the
walked block numbers. -/
def scan_freelist_walk (mp : MpAlloc) (ag : AgInput) :
    Nat → Nat → Bmap → Nat → Nat → List Nat → Bmap × Nat × Nat × List Nat
  | 0, _, m, count, warns, visited => (m, count, warns, visited)
  | fuel + 1, i, m, count, warns, visited =>
    let bno := ag.freelist i
    let mw := if verify_agbno mp.agSize bno = true
      then (set_bmap m bno .XR_E_FREE, warns) else (m, warns + 1)
    let count := count + 1
    let visited := visited ++ [bno]
    if i = ag.agf_fllast then (mw.1, count, mw.2, visited)
    else scan_freelist_walk mp ag fuel (if i + 1 = ag.agflSize then 0 else i + 1)
      mw.1 count mw.2 visited

/-- Result of `scan_freelist`: the updated scan state, the walked block
numbers, the walked count, and whether the count-mismatch warning
fired. -/
structure FreelistResult where
  st : ScanSt
  visited : List Nat
  count : Nat
  countMismatch : Bool

/-- Embedded `scan_freelist` (scan.c:1406-1473), with the AGFL buffer
read assumed to succeed (a failed read is `do_abort`).  Marks the AGFL
header block `XR_E_FS_MAP` when it does not coincide with the other
headers, walks the freelist marking every valid listed block
`XR_E_FREE`, warns when the walked count disagrees with
`agf_flcount`, and adds the walked count to `fdblocks`. -/
def scan_freelist (mp : MpAlloc) (ag : AgInput) (st : ScanSt) : FreelistResult :=
  let st := if ag.hdrDistinct then { st with m := set_bmap st.m ag.agflBlock .XR_E_FS_MAP }
    else st
  if ag.agf_flcount = 0 then { st := st, visited := [], count := 0, countMismatch := false }
  else if ag.noModify ∧ (ag.agf_flfirst ≥ ag.agflSize ∨ ag.agf_fllast ≥ ag.agflSize) then
    { st := addWarn st, visited := [], count := 0, countMismatch := false }
  else
    let r := scan_freelist_walk mp ag ag.agflSize ag.agf_flfirst st.m 0 st.warns []
    { st := { m := r.1,
              cnts := { st.cnts with fdblocks := st.cnts.fdblocks + r.2.1 },
              warns := if r.2.1 ≠ ag.agf_flcount then r.2.2.1 + 1 else r.2.2.1 },
      visited := r.2.2.2, count := r.2.1,
      countMismatch := decide (r.2.1 ≠ ag.agf_flcount) }

/-- Expected magic of the by-offset tree (scan.c:1486-1487). -/
def bnoTreeMagic (mp : MpAlloc) : Nat :=
  if mp.hasCrc then XFS_ABTB_CRC_MAGIC else XFS_ABTB_MAGIC

/-- Expected magic of the by-count tree (scan.c:1498-1499). -/
def cntTreeMagic (mp : MpAlloc) : Nat :=
  if mp.hasCrc then XFS_ABTC_CRC_MAGIC else XFS_ABTC_MAGIC

/-- By-offset-tree scan step of `validate_agf` (scan.c:1484-1494): scan
from the AGF root when it is a valid AG block, warn otherwise. -/
def validate_agf_bno (mp : MpAlloc) (ag : AgInput) (st : ScanSt) : ScanSt :=
  if ag.bnoRoot ≠ 0 ∧ verify_agbno mp.agSize ag.bnoRoot = true then
    scan_allocbt_go mp (bnoTreeMagic mp) ag.disk (ag.bnoLevels - 1) ag.bnoRoot 0 true st
  else addWarn st

/-- By-count-tree scan step of `validate_agf` (scan.c:1496-1506). -/
def validate_agf_cnt (mp : MpAlloc) (ag : AgInput) (st : ScanSt) : ScanSt :=
  if ag.cntRoot ≠ 0 ∧ verify_agbno mp.agSize ag.cntRoot = true then
    scan_allocbt_go mp (cntTreeMagic mp) ag.disk (ag.cntLevels - 1) ag.cntRoot 0 true st
  else addWarn st

/-- Counter comparisons of `validate_agf` (scan.c:1508-1522): freeblks,
longest, and — on lazy-count filesystems — btreeblks; each mismatch is a
warning. -/
def validate_agf_cmp (ag : AgInput) (st : ScanSt) : ScanSt :=
  let st1 := if ag.agf_freeblks ≠ st.cnts.agffreeblks then addWarn st else st
  let st2 := if ag.agf_longest ≠ st1.cnts.agflongest then addWarn st1 else st1
  if ag.lazyCount ∧ ag.agf_btreeblks ≠ st2.cnts.agfbtreeblks then addWarn st2 else st2

/-- Embedded `validate_agf` (scan.c:1475-1523): scan the by-offset tree,
then the by-count tree (each from its AGF root, warning on an invalid
root), then compare the stored AGF counters with the accumulated
counts. -/
def validate_agf (mp : MpAlloc) (ag : AgInput) (st : ScanSt) : ScanSt :=
  validate_agf_cmp ag (validate_agf_cnt mp ag (validate_agf_bno mp ag st))

/-- Free-data-block-relevant portion of one AG task (`scan_ag`,
scan.c:1593-1749): the freelist walk followed by `validate_agf`.  The
inode-tree scan of `validate_agi` touches neither `fdblocks` nor the
`XR_E_FREE`/`XR_E_FREE1` states and is modelled separately. -/
def scan_ag (mp : MpAlloc) (ag : AgInput) (m0 : Bmap) : ScanSt :=
  validate_agf mp ag (scan_freelist mp ag { m := m0, cnts := {}, warns := 0 }).st

/-- Dispatcher reduction of `scan_ags` (scan.c:1753-1805), restricted to
the `fdblocks` counter: one `scan_ag` per AG, the per-AG `fdblocks`
summed and compared against the superblock value (scan.c:1779-1804).
Returns the computed total, the total warning count, and the per-AG
results. -/
def scan_ags (mp : MpAlloc) (ags : List (AgInput × Bmap)) (sb_fdblocks : Nat) :
    Nat × Nat × List ScanSt :=
  let results := ags.map (fun p => scan_ag mp p.1 p.2)
  let fdblocks := (results.map (fun st => st.cnts.fdblocks)).sum
  let warns := (results.map (fun st => st.warns)).sum +
    (if sb_fdblocks ≠ fdblocks then 1 else 0)
  (fdblocks, warns, results)

/-- Number of AG blocks whose state is `XR_E_FREE` or `XR_E_FREE1`. -/
def countFreeStates (m : Bmap) (agSize : Nat) : Nat :=
  ((List.range agSize).filter fun b =>
    decide (m b = .XR_E_FREE ∨ m b = .XR_E_FREE1)).length


/-- Per-AG free-data-block contribution used by the amended C2 law:
AGFL count plus the two freespace-tree contributions. -/
def agFdContrib (mp : MpAlloc) (ag : AgInput) : Nat :=
  ag.agf_flcount +
    fdContrib mp (bnoTreeMagic mp) ag.disk (ag.bnoLevels - 1) ag.bnoRoot true +
    fdContrib mp (cntTreeMagic mp) ag.disk (ag.cntLevels - 1) ag.cntRoot true

/-- Geometry of a small concrete test image (one AG of 100 blocks,
record-count bounds 1..4, no CRCs). -/
def cexMp : MpAlloc :=
  { agSize := 100, m_alloc_mxr0 := 4, m_alloc_mnr0 := 1,
    m_alloc_mxr1 := 4, m_alloc_mnr1 := 1, hasCrc := false }

/-- Block contents never read by the concrete test image. -/
def cexJunkBlock : AllocBlock :=
  { bb_magic := 0, bb_level := 99, bb_numrecs := 0, recs := [], ptrs := [] }

/-- Disk of the concrete test image: the by-offset tree is an interior
root at block 1 over a leaf at block 2 holding the single free extent
(10, 5); the by-count tree is an interior root at block 3 over a leaf at
block 4 holding the same extent. -/
def cexDisk : AllocDisk := fun bno =>
  if bno = 1 then
    { bb_magic := XFS_ABTB_MAGIC, bb_level := 1, bb_numrecs := 1, recs := [], ptrs := [2] }
  else if bno = 2 then
    { bb_magic := XFS_ABTB_MAGIC, bb_level := 0, bb_numrecs := 1,
      recs := [{ ar_startblock := 10, ar_blockcount := 5 }], ptrs := [] }
  else if bno = 3 then
    { bb_magic := XFS_ABTC_MAGIC, bb_level := 1, bb_numrecs := 1, recs := [], ptrs := [4] }
  else if bno = 4 then
    { bb_magic := XFS_ABTC_MAGIC, bb_level := 0, bb_numrecs := 1,
      recs := [{ ar_startblock := 10, ar_blockcount := 5 }], ptrs := [] }
  else cexJunkBlock

/-- AG input of the concrete test image: empty AGFL, the two tree roots,
and stored AGF counters that all match the computed ones, so the scan of
this image emits no warning at all. -/
def cexAg : AgInput :=
  { agf_flcount := 0, agf_flfirst := 0, agf_fllast := 0, agflSize := 4,
    freelist := fun _ => 0, hdrDistinct := false, agflBlock := 0,
    bnoRoot := 1, bnoLevels := 2, cntRoot := 3, cntLevels := 2,
    disk := cexDisk, agf_freeblks := 5, agf_longest := 5, agf_btreeblks := 2,
    lazyCount := true, noModify := true }

/-- Initial block-state map of the concrete test image: all blocks
unobserved. -/
def cexM0 : Bmap := fun _ => .XR_E_UNKNOWN


/-- Interior-node control flow of `scan_allocbt` distilled to the
descent decision (scan.c:560-566, 578-584, 589-597, 699-723): given
whether the magic and level match, the state of the node's own block,
whether the record count is within bounds, and the inherited suspect
flag, returns `none` when the node is abandoned without descending into
any child, or `some s` when the children are visited with suspect value
`s`. -/
def scan_allocbt_interior_descend (magicOk levelOk : Bool) (blockState : XRState)
    (boundsOk : Bool) (suspect : Nat) : Option Nat :=
  if magicOk = false ∧ suspect ≠ 0 then none
  else if levelOk = false ∧ suspect ≠ 0 then none
  else if blockState ≠ .XR_E_UNKNOWN then none
  else
    if (if magicOk then 0 else 1) + (if levelOk then 0 else 1) +
        (if boundsOk then 0 else 1) ≠ 0 then
      if suspect ≠ 0 then none else some (suspect + 1)
    else if suspect ≠ 0 then some 0 else some suspect

/-- Interior-node control flow of `scan_inobt` distilled to the descent
decision (scan.c:1260-1275, 1371-1395).  Unlike the freespace visitor,
the inode visitor never abandons a node because of its block state, and
it clears an inherited suspect flag before the header-error test
(scan.c:1387-1388). -/
def scan_inobt_interior_descend (magicOk levelOk boundsOk : Bool) (suspect : Nat) :
    Option Nat :=
  if magicOk = false ∧ suspect ≠ 0 then none
  else if levelOk = false ∧ suspect ≠ 0 then none
  else
    if (if magicOk then 0 else 1) + (if levelOk then 0 else 1) +
        (if boundsOk then 0 else 1) ≠ 0 then
      if (if suspect ≠ 0 ∧ ((if magicOk then 0 else 1) + (if levelOk then 0 else 1) +
          (if boundsOk then 0 else 1)) = 0 then 0 else suspect) ≠ 0 then none
      else some ((if suspect ≠ 0 ∧ ((if magicOk then 0 else 1) + (if levelOk then 0 else 1) +
          (if boundsOk then 0 else 1)) = 0 then 0 else suspect) + 1)
    else some (if suspect ≠ 0 ∧ ((if magicOk then 0 else 1) + (if levelOk then 0 else 1) +
        (if boundsOk then 0 else 1)) = 0 then 0 else suspect)


/-- Block claim of `scan_bmapbt` in normal mode (`check_dups == 0`,
scan.c:308-354): the value the switch writes into the block-state map as
a function of the current state; `none` means the switch only warns and
writes nothing (the `XR_E_BAD_STATE`/default case, scan.c:347-352). -/
def scan_bmapbt_claim_write : XRState → Option XRState
  | .XR_E_UNKNOWN | .XR_E_FREE1 | .XR_E_FREE => some .XR_E_INUSE
  | .XR_E_FS_MAP | .XR_E_INUSE => some .XR_E_MULT
  | .XR_E_MULT | .XR_E_INUSE_FS => some .XR_E_MULT
  | _ => none

/-- Warning behaviour of the same switch: the three free-ish states are
claimed silently, every other state warns. -/
def scan_bmapbt_claim_warns : XRState → Bool
  | .XR_E_UNKNOWN | .XR_E_FREE1 | .XR_E_FREE => false
  | _ => true

/-- Outcome of the block-claim step of `scan_bmapbt`: either the node is
abandoned (`return 1`) or processing continues with the updated map and
a warning flag. -/
inductive BmapbtStep where
  | abort
  | cont (m : Bmap) (warned : Bool)

/-- The block-claim switch of `scan_bmapbt` (scan.c:308-354): updates
the map per `scan_bmapbt_claim_write` and continues in every case — no
case of the switch returns from the function. -/
def scan_bmapbt_claim (m : Bmap) (b : Nat) : BmapbtStep :=
  match scan_bmapbt_claim_write (get_bmap m b) with
  | some s => .cont (set_bmap m b s) (scan_bmapbt_claim_warns (get_bmap m b))
  | none => .cont m (scan_bmapbt_claim_warns (get_bmap m b))

/-- Own-block claim of `scan_allocbt` (scan.c:589-597): only
`XR_E_UNKNOWN` becomes `XR_E_FS_MAP`; anything else becomes
`XR_E_MULT`. -/
def scan_allocbt_node_claim_write (s : XRState) : XRState :=
  if s = .XR_E_UNKNOWN then .XR_E_FS_MAP else .XR_E_MULT

/-- Own-block claim of `scan_inobt` (scan.c:1281-1293): unknown or
free-ish states become `XR_E_FS_MAP`; anything else becomes
`XR_E_MULT`. -/
def scan_inobt_claim_write : XRState → XRState
  | .XR_E_UNKNOWN | .XR_E_FREE1 | .XR_E_FREE => .XR_E_FS_MAP
  | _ => .XR_E_MULT

/-- One claim operation on a single block's state, one constructor per
`set_bmap`/`get_bmap` site of `scan.c` (parameters record the
information the site reads besides the block's own state). -/
inductive ScanOp where
  | freelistHdr
  | freelistBlk (valid : Bool)
  | allocbtNodeClaim
  | allocbtRecBlk (isCnt runStart : Bool)
  | inobtNodeClaim
  | inoChunkBlk (prealloc : Bool)
  | finobtChunkBlk (sparse prealloc : Bool)
  | bmapbtNodeClaim
deriving DecidableEq

/-- What each claim site writes to the block's state (`none` = no
write): `freelistHdr` is scan.c:1420-1423, `freelistBlk` is
scan.c:1453-1458, `allocbtNodeClaim` scan.c:589-597, `allocbtRecBlk`
scan.c:665-689 (per block of the visited run; only the run's first
UNKNOWN block is written), `inobtNodeClaim` scan.c:1281-1293,
`inoChunkBlk` scan.c:978-994, `finobtChunkBlk` scan.c:1089-1119,
`bmapbtNodeClaim` scan.c:308-354. -/
def ScanOp.writeVal : ScanOp → XRState → Option XRState
  | .freelistHdr, _ => some .XR_E_FS_MAP
  | .freelistBlk valid, _ => if valid then some .XR_E_FREE else none
  | .allocbtNodeClaim, s => some (scan_allocbt_node_claim_write s)
  | .allocbtRecBlk isCnt runStart, s =>
    match s with
    | .XR_E_UNKNOWN => if runStart then some .XR_E_FREE1 else none
    | .XR_E_FREE1 => if isCnt then some .XR_E_FREE else none
    | _ => none
  | .inobtNodeClaim, s => some (scan_inobt_claim_write s)
  | .inoChunkBlk prealloc, s =>
    match s with
    | .XR_E_UNKNOWN => some .XR_E_INO
    | .XR_E_INUSE_FS => if prealloc then some .XR_E_INO else none
    | _ => none
  | .finobtChunkBlk sparse prealloc, s =>
    if sparse then none
    else
      match s with
      | .XR_E_INO => none
      | .XR_E_UNKNOWN => some .XR_E_INO
      | .XR_E_INUSE_FS => if prealloc then some .XR_E_INO else none
      | _ => none
  | .bmapbtNodeClaim, s => scan_bmapbt_claim_write s

/-- Effect of one claim operation on the block's state (no write keeps
the state). -/
def ScanOp.applyOp (op : ScanOp) (s : XRState) : XRState := (op.writeVal s).getD s

/-- The AGFL-walk operations: within one AG task they all precede every
tree-visitor operation (`scan_ag` calls `scan_freelist` before
`validate_agf`/`validate_agi`, scan.c:1690-1693, and the extent-tree
scan of inodes runs after `scan_ags`). -/
def ScanOp.isFreelist : ScanOp → Bool
  | .freelistHdr => true
  | .freelistBlk _ => true
  | _ => false

/-- State of one block after a sequence of claim operations. -/
def applyTrace (t : List ScanOp) (s : XRState) : XRState :=
  t.foldl (fun s op => op.applyOp s) s


/-- Record-count acceptance of an interior bmap-btree node
(scan.c:425-431): the node is rejected (`return 1`) when `numrecs`
exceeds `mp->m_bmap_dmxr[1]` or a non-root node falls below
`mp->m_bmap_dmnr[1]`. -/
def scan_bmapbt_interior_numrecs_ok (dmnr1 dmxr1 : Nat) (isroot : Bool)
    (numrecs : Nat) : Bool :=
  ¬(numrecs > dmxr1 ∨ (isroot = false ∧ numrecs < dmnr1))

/-- Key-array indices read by the trailing cursor update of
`scan_bmapbt` (scan.c:513-517): `pkey[0].br_startoff` and
`pkey[numrecs - 1].br_startoff`; the C `int` arithmetic is modelled in
`Int`, so `numrecs = 0` reads index `-1`. -/
def scan_bmapbt_trailing_key_reads (numrecs : Nat) : List Int :=
  [0, (numrecs : Int) - 1]

/-- Number of inodes in one chunk (`XFS_INODES_PER_CHUNK`). -/
def XFS_INODES_PER_CHUNK : Nat := 64

/-- Parameters of the inode-chunk routines read from the mount and the
repair globals (`inodes_per_block`, `fs_aligned_inodes`,
`fs_ino_alignment`, the AG-0 preallocation range, sparse-inode
support). -/
structure InoParams where
  inopblock : Nat
  fs_aligned_inodes : Bool
  fs_ino_alignment : Nat
  agno : Nat
  agInodes : Nat
  first_prealloc_ino : Nat
  last_prealloc_ino : Nat
  hasSparse : Bool
deriving DecidableEq

/-- Modelled from the spec (§4.6, "whose numeric range is out-of-bounds
for the AG"): `verify_aginum` of the repair library (not under `src/`) —
an AG inode number is out of bounds when at or beyond the AG's inode
capacity. -/
def verify_aginum_bad (p : InoParams) (agino : Nat) : Bool := p.agInodes ≤ agino

/-- Alignment condition of `verify_single_ino_chunk_align`
(scan.c:816-821): zero starting inode, a non-zero block offset when a
block holds at least one whole chunk, a block offset that is not a
64-inode boundary when a block holds several chunks, or — on
inode-aligned filesystems — an AG block that is not a multiple of the
alignment. -/
def ino_chunk_align_bad (p : InoParams) (ino : Nat) : Bool :=
  ino = 0 ∨
  (p.inopblock ≤ XFS_INODES_PER_CHUNK ∧ ino % p.inopblock ≠ 0) ∨
  (p.inopblock > XFS_INODES_PER_CHUNK ∧ (ino % p.inopblock) % XFS_INODES_PER_CHUNK ≠ 0) ∨
  (p.fs_aligned_inodes = true ∧ p.fs_ino_alignment ≠ 0 ∧
    (ino / p.inopblock) % p.fs_ino_alignment ≠ 0)

/-- Embedded `verify_single_ino_chunk_align` (scan.c:789-856): a bad
alignment warns and increments the suspect count without skipping; an
out-of-bounds starting or ending inode warns, increments the suspect
count and sets `skip`.  Returns `(suspect, skip, warnings)`. -/
def verify_single_ino_chunk_align (p : InoParams) (ino suspect : Nat) :
    Nat × Bool × Nat :=
  if ino_chunk_align_bad p ino then
    if verify_aginum_bad p ino then (suspect + 2, true, 2)
    else if verify_aginum_bad p (ino + XFS_INODES_PER_CHUNK - 1) then (suspect + 2, true, 2)
    else (suspect + 1, false, 1)
  else
    if verify_aginum_bad p ino then (suspect + 1, true, 1)
    else if verify_aginum_bad p (ino + XFS_INODES_PER_CHUNK - 1) then (suspect + 1, true, 1)
    else (suspect, false, 0)

/-- Concrete parameters for the alignment counterexample: 16 inodes per
block (so a block holds several whole chunks is false: 16 ≤ 64), no
forced alignment, a 1000-inode AG. -/
def cexInoP : InoParams :=
  { inopblock := 16, fs_aligned_inodes := false, fs_ino_alignment := 0,
    agno := 1, agInodes := 1000, first_prealloc_ino := 0, last_prealloc_ino := 0,
    hasSparse := false }


/-- Outcome of a buffer read: `libxfs_readbuf` returning NULL, a bad
CRC, verifier-detected corruption, or success. -/
inductive ReadResult where
  | readFail
  | badCrc
  | corrupt
  | ok
deriving DecidableEq

/-- How `scan_sbtree` proceeds after the read: `fatalError` models
`do_error`, which terminates the process; `visit s` models invoking the
visitor with suspect flag `s` and releasing the buffer. -/
inductive WalkerOutcome where
  | fatalError
  | visit (suspect : Bool)
deriving DecidableEq

/-- Read handling of `scan_sbtree` (scan.c:79-94): a NULL buffer is
`do_error` (scan.c:81-84, fatal — the `return` after it is dead code);
`-EFSBADCRC` and `-EFSCORRUPTED` warn and force the suspect flag
(scan.c:85-89); otherwise the visitor runs with the caller's flag. -/
def scan_sbtree_read (suspectIn : Bool) : ReadResult → WalkerOutcome
  | .readFail => .fatalError
  | .badCrc => .visit true
  | .corrupt => .visit true
  | .ok => .visit suspectIn

/-- How `scan_lbtree` proceeds after the read: `visit b` models invoking
the visitor with `badcrc = b` (a bad CRC forces writeback in modify
mode, scan.c:162-165). -/
inductive LbtreeOutcome where
  | fatalError
  | visit (badcrc : Bool)
deriving DecidableEq

/-- Read handling of `scan_lbtree` (scan.c:134-153): a NULL buffer is
`do_error` (scan.c:136-141, fatal — the `return 1` after it is dead
code); only `-EFSBADCRC` is tested here (scan.c:148), setting
`badcrc`. -/
def scan_lbtree_read : ReadResult → LbtreeOutcome
  | .readFail => .fatalError
  | .badCrc => .visit true
  | .corrupt => .visit false
  | .ok => .visit false


/-- AG input for the AGFL-walk witness (spec scenario 6): the header
claims `flcount = 5` but the list indices 0..3 wrap-free walk yields 4
blocks, 5, 6, 7 and 8. -/
def cexAgfl : AgInput :=
  { agf_flcount := 5, agf_flfirst := 0, agf_fllast := 3, agflSize := 4,
    freelist := fun i => 5 + i, hdrDistinct := false, agflBlock := 0,
    bnoRoot := 1, bnoLevels := 2, cntRoot := 3, cntLevels := 2,
    disk := cexDisk, agf_freeblks := 5, agf_longest := 5, agf_btreeblks := 2,
    lazyCount := true, noModify := true }

/-- Initial scan state for the AGFL-walk witness. -/
def cexSt0 : ScanSt := { m := cexM0, cnts := {}, warns := 0 }


/-- One on-disk inode-btree record (`xfs_inobt_rec_t`), decoded:
starting AG inode, per-inode free bits (`XFS_INOBT_IS_FREE_DISK`), raw
hole-mask bits, the stored freecount (`inorec_get_freecount`) and — in
the sparse format — the stored inode count (`ir_u.sp.ir_count`). -/
structure InobtRec where
  ir_startino : Nat
  ir_free : Nat → Bool
  ir_hole : Nat → Bool
  ir_freecount : Nat
  ir_count : Nat

/-- `ino_issparse` (scan.c:756-765): the sparse bit of inode `j`, on
filesystems with sparse-inode support only. -/
def ino_issparse (p : InoParams) (r : InobtRec) (j : Nat) : Bool :=
  p.hasSparse ∧ r.ir_hole j

/-- In-core inode record as returned by `find_inode_rec_range` (the
external inventory, spec §3/§6): its start inode and the per-inode
free/sparse flags recorded by the allocation-tree scan. -/
structure IncoreIrec where
  ino_startnum : Nat
  isFree : Nat → Bool
  isSparse : Nat → Bool

/-- `import_single_ino_chunk` (scan.c:864-931) reduced to its counting
and suspicion effect; the tree insertions go to the external inventory.
Returns `(suspect, nfree, ninodes, warnings)`: a sparse inode that is
not also marked free warns and makes the record suspect; non-sparse
inodes are counted, free ones in `nfree`. -/
def import_single_ino_chunk (p : InoParams) (r : InobtRec) (suspect : Nat) :
    Nat × Nat × Nat × Nat :=
  (List.range XFS_INODES_PER_CHUNK).foldl
    (fun acc j =>
      if ino_issparse p r j then
        if acc.1 = 0 ∧ r.ir_free j = false then
          (acc.1 + 1, acc.2.1, acc.2.2.1, acc.2.2.2 + 1)
        else acc
      else
        (acc.1, acc.2.1 + (if r.ir_free j then 1 else 0), acc.2.2.1 + 1, acc.2.2.2))
    (suspect, 0, 0, 0)

/-- Offsets of the block cross-check loops (scan.c:969-971, 1085-1087):
`j = 0, inopblock, 2·inopblock, … < 64`. -/
def inoChunkBlockOffsets (p : InoParams) : List Nat :=
  (List.range ((XFS_INODES_PER_CHUNK + p.inopblock - 1) / p.inopblock)).map
    (fun k => k * p.inopblock)

/-- Result of the finobt block cross-check loop: the map, the suspect
and warning counts, and whether the routine bailed out
(`return ++suspect`, scan.c:1114-1119). -/
structure FinobtLoopRes where
  m : Bmap
  suspect : Nat
  warns : Nat
  bailed : Bool

/-- Block cross-check loop of `scan_single_finobt_chunk`
(scan.c:1084-1121): sparse inodes must not sit on `XR_E_INO` blocks
(warn, suspect); non-sparse blocks must already be `XR_E_INO`; an
untracked block (`XR_E_UNKNOWN`, or AG-0 `XR_E_INUSE_FS` within the
preallocation range) warns and is set `XR_E_INO`; any other state warns
and abandons the record. -/
def scan_finobt_chunk_blocks (p : InoParams) (r : InobtRec) :
    List Nat → Bmap → Nat → Nat → FinobtLoopRes
  | [], m, suspect, warns => ⟨m, suspect, warns, false⟩
  | j :: rest, m, suspect, warns =>
    if ino_issparse p r j then
      if get_bmap m ((r.ir_startino + j) / p.inopblock) = .XR_E_INO then
        scan_finobt_chunk_blocks p r rest m (suspect + 1) (warns + 1)
      else scan_finobt_chunk_blocks p r rest m suspect warns
    else
      if get_bmap m ((r.ir_startino + j) / p.inopblock) = .XR_E_INO then
        scan_finobt_chunk_blocks p r rest m suspect warns
      else if get_bmap m ((r.ir_startino + j) / p.inopblock) = .XR_E_UNKNOWN ∨
          (get_bmap m ((r.ir_startino + j) / p.inopblock) = .XR_E_INUSE_FS ∧
            p.agno = 0 ∧ p.first_prealloc_ino ≤ r.ir_startino + j ∧
            r.ir_startino + j < p.last_prealloc_ino) then
        scan_finobt_chunk_blocks p r rest
          (set_bmap m ((r.ir_startino + j) / p.inopblock) .XR_E_INO)
          (suspect + 1) (warns + 1)
      else ⟨m, suspect + 1, warns + 1, true⟩

/-- Consistency loop of the authoritative branch of
`scan_single_finobt_chunk` (scan.c:1143-1164): count non-sparse and
free-non-sparse inodes and raise suspicion on any free/sparse
disagreement with the in-core record.  Returns
`(suspect, nfree, ninodes)`. -/
def finobt_consistency_loop (p : InoParams) (r : InobtRec) (fr : IncoreIrec)
    (suspect : Nat) : Nat × Nat × Nat :=
  (List.range XFS_INODES_PER_CHUNK).foldl
    (fun acc j =>
      let nin := acc.2.2 + (if ino_issparse p r j then 0 else 1)
      let nfr := acc.2.1 +
        (if r.ir_free j = true ∧ ino_issparse p r j = false then 1 else 0)
      let s1 := if acc.1 = 0 ∧ r.ir_free j ≠ fr.isFree j then acc.1 + 1 else acc.1
      let s2 := if s1 = 0 ∧ ino_issparse p r j ≠ fr.isSparse j then s1 + 1 else s1
      (s2, nfr, nin))
    (suspect, 0, 0)

/-- Freecount tail of `scan_single_finobt_chunk` (scan.c:1187-1217):
warn on a freecount mismatch, on a record with no free inodes, and on a
sparse-format inode-count mismatch. -/
def finobt_check_freecount (p : InoParams) (r : InobtRec) (nfree ninodes warns : Nat) :
    Nat :=
  let w1 := if nfree ≠ r.ir_freecount then warns + 1 else warns
  let w2 := if nfree = 0 then w1 + 1 else w1
  if p.hasSparse = true ∧ ninodes ≠ r.ir_count then w2 + 1 else w2

/-- Result of `scan_single_finobt_chunk`: the block map, the returned
suspect value, the warnings, whether the "undiscovered finobt record"
warning fired, whether the record was imported into the inventory, and
whether the routine abandoned the record early. -/
structure FinobtChunkRes where
  m : Bmap
  suspect : Nat
  warns : Nat
  undiscovered : Bool
  imported : Bool
  bailed : Bool

/-- Embedded `scan_single_finobt_chunk` (scan.c:1048-1220).  The in-core
lookup `find_inode_rec_range` is a parameter (`firstRec`); the block
cross-check loop runs only for block-aligned, non-suspect records
(scan.c:1084); a record with no authoritative counterpart warns
"undiscovered finobt record" and is imported (scan.c:1169-1185). -/
def scan_single_finobt_chunk (p : InoParams) (r : InobtRec)
    (firstRec : Option IncoreIrec) (suspect : Nat) (m : Bmap) : FinobtChunkRes :=
  if (verify_single_ino_chunk_align p r.ir_startino suspect).2.1 then
    { m := m, suspect := (verify_single_ino_chunk_align p r.ir_startino suspect).1,
      warns := (verify_single_ino_chunk_align p r.ir_startino suspect).2.2,
      undiscovered := false, imported := false, bailed := false }
  else
    let al := verify_single_ino_chunk_align p r.ir_startino suspect
    let bl :=
      if r.ir_startino % p.inopblock = 0 ∧ al.1 = 0 then
        scan_finobt_chunk_blocks p r (inoChunkBlockOffsets p) m al.1 al.2.2
      else ⟨m, al.1, al.2.2, false⟩
    if bl.bailed then
      { m := bl.m, suspect := bl.suspect, warns := bl.warns,
        undiscovered := false, imported := false, bailed := true }
    else
      match firstRec with
      | some fr =>
        if bl.suspect ≠ 0 then
          { m := bl.m, suspect := bl.suspect, warns := bl.warns,
            undiscovered := false, imported := false, bailed := false }
        else if fr.ino_startnum ≠ r.ir_startino then
          { m := bl.m, suspect := bl.suspect + 1, warns := bl.warns + 1,
            undiscovered := false, imported := false, bailed := true }
        else
          { m := bl.m,
            suspect := (finobt_consistency_loop p r fr bl.suspect).1,
            warns := finobt_check_freecount p r
              (finobt_consistency_loop p r fr bl.suspect).2.1
              (finobt_consistency_loop p r fr bl.suspect).2.2 bl.warns,
            undiscovered := false, imported := false, bailed := false }
      | none =>
        { m := bl.m,
          suspect := (import_single_ino_chunk p r bl.suspect).1,
          warns := finobt_check_freecount p r
            (import_single_ino_chunk p r bl.suspect).2.1
            (import_single_ino_chunk p r bl.suspect).2.2.1
            (bl.warns + 1 + (import_single_ino_chunk p r bl.suspect).2.2.2),
          undiscovered := true, imported := true, bailed := false }

/-- Parameters for the undiscovered-finobt-record counterexample: 16
inodes per block in a 10000-inode AG, no sparse support, no forced
alignment. -/
def cexFinoP : InoParams :=
  { inopblock := 16, fs_aligned_inodes := false, fs_ino_alignment := 0,
    agno := 1, agInodes := 10000, first_prealloc_ino := 0, last_prealloc_ino := 0,
    hasSparse := false }

/-- The undiscovered finobt record of spec scenario 5: chunk starting at
inode 2048, all 64 inodes free, never mentioned by the allocation
tree. -/
def cexFinoRec : InobtRec :=
  { ir_startino := 2048, ir_free := fun _ => true, ir_hole := fun _ => false,
    ir_freecount := 64, ir_count := 64 }


-- ===== THEOREMS =====

theorem runLenAux_le (m : Bmap) (s : XRState) :
    ∀ fuel b, runLenAux m s b fuel ≤ fuel := by
  intro fuel
  induction fuel with
  | zero => intro b; simp [runLenAux]
  | succ f ih =>
    intro b
    simp only [runLenAux]
    split
    · have := ih (b + 1); omega
    · omega

theorem runLenAux_full (m : Bmap) (s : XRState) :
    ∀ fuel b, (∀ i, i < fuel → m (b + i) = s) → runLenAux m s b fuel = fuel := by
  intro fuel
  induction fuel with
  | zero => intro b _; simp [runLenAux]
  | succ f ih =>
    intro b h
    have hb : m b = s := by have := h 0 (by omega); simpa using this
    have hrest : ∀ i, i < f → m (b + 1 + i) = s := by
      intro i hi
      have := h (i + 1) (by omega)
      have harg : b + 1 + i = b + (i + 1) := by omega
      rw [harg, this]
    simp only [runLenAux, hb, if_pos rfl, ih (b + 1) hrest]
    simp [Nat.add_comm]

theorem runLen_pos (m : Bmap) (b e : Nat) (h : b < e) : 1 ≤ runLen m b e := by
  simp [runLen, h]

theorem runLen_le (m : Bmap) (b e : Nat) : runLen m b e ≤ e - b := by
  unfold runLen
  split
  · have := runLenAux_le m (m b) (e - (b + 1)) (b + 1)
    omega
  · omega

theorem runLen_uniform (m : Bmap) (b e : Nat) (hbe : b < e)
    (h : ∀ x, x < e → b ≤ x → m x = m b) : runLen m b e = e - b := by
  unfold runLen
  rw [if_pos hbe]
  rw [runLenAux_full m (m b) (e - (b + 1)) (b + 1) (fun i hi => h (b + 1 + i) (by omega) (by omega))]
  omega

theorem scan_allocbt_block_loopF_stop (magic : Nat) (fuel : Nat) (m : Bmap) (b e w : Nat)
    (h : ¬ b < e) : scan_allocbt_block_loopF magic fuel m b e w = (m, w) := by
  cases fuel with
  | zero => simp [scan_allocbt_block_loopF]
  | succ f => simp [scan_allocbt_block_loopF, h]

theorem scan_allocbt_block_loop_run_unknown (magic : Nat) (m : Bmap) (b e w : Nat)
    (hbe : b < e) (hmb : m b = .XR_E_UNKNOWN) (hrun : b + runLen m b e = e) :
    scan_allocbt_block_loop magic m b e w = (set_bmap m b .XR_E_FREE1, w) := by
  obtain ⟨f, hf⟩ : ∃ f, e - b = f + 1 := ⟨e - b - 1, by omega⟩
  unfold scan_allocbt_block_loop
  rw [hf]
  simp only [scan_allocbt_block_loopF, if_pos hbe, get_bmap_ext, hmb]
  exact scan_allocbt_block_loopF_stop magic f _ (b + runLen m b e) e w (by omega)

theorem scan_allocbt_block_loop_run_free1_cnt (magic : Nat) (m : Bmap) (b e w : Nat)
    (hbe : b < e) (hmb : m b = .XR_E_FREE1) (hcnt : isCntMagic magic = true)
    (hrun : b + runLen m b e = e) :
    scan_allocbt_block_loop magic m b e w =
      (set_bmap_ext m b (runLen m b e) .XR_E_FREE, w) := by
  obtain ⟨f, hf⟩ : ∃ f, e - b = f + 1 := ⟨e - b - 1, by omega⟩
  unfold scan_allocbt_block_loop
  rw [hf]
  simp only [scan_allocbt_block_loopF, if_pos hbe, get_bmap_ext, hmb, hcnt, if_true]
  exact scan_allocbt_block_loopF_stop magic f _ (b + runLen m b e) e w (by omega)

theorem scan_allocbt_block_loop_run_other (magic : Nat) (m : Bmap) (b e w : Nat)
    (hbe : b < e) (hs : m b ≠ .XR_E_UNKNOWN)
    (hfree1 : m b = .XR_E_FREE1 → isCntMagic magic = false)
    (hrun : b + runLen m b e = e) :
    scan_allocbt_block_loop magic m b e w = (m, w + 1) := by
  obtain ⟨f, hf⟩ : ∃ f, e - b = f + 1 := ⟨e - b - 1, by omega⟩
  unfold scan_allocbt_block_loop
  rw [hf]
  have hstop := scan_allocbt_block_loopF_stop magic f m (b + runLen m b e) e (w + 1) (by omega)
  cases hmb : m b with
  | XR_E_UNKNOWN => exact absurd hmb hs
  | XR_E_FREE1 =>
    simp only [scan_allocbt_block_loopF, if_pos hbe, get_bmap_ext, hmb, hfree1 hmb,
      Bool.false_eq_true, if_false]
    exact hstop
  | XR_E_FREE =>
    simp only [scan_allocbt_block_loopF, if_pos hbe, get_bmap_ext, hmb]; exact hstop
  | XR_E_INO =>
    simp only [scan_allocbt_block_loopF, if_pos hbe, get_bmap_ext, hmb]; exact hstop
  | XR_E_FS_MAP =>
    simp only [scan_allocbt_block_loopF, if_pos hbe, get_bmap_ext, hmb]; exact hstop
  | XR_E_INUSE =>
    simp only [scan_allocbt_block_loopF, if_pos hbe, get_bmap_ext, hmb]; exact hstop
  | XR_E_INUSE_FS =>
    simp only [scan_allocbt_block_loopF, if_pos hbe, get_bmap_ext, hmb]; exact hstop
  | XR_E_MULT =>
    simp only [scan_allocbt_block_loopF, if_pos hbe, get_bmap_ext, hmb]; exact hstop
  | XR_E_BAD_STATE =>
    simp only [scan_allocbt_block_loopF, if_pos hbe, get_bmap_ext, hmb]; exact hstop

/-- C1 (amended).  Reconciliation actually performed by the per-record
block loop of `scan_allocbt` (scan.c:665-689) on a uniform-state record
range `[b, e)`:
* a range of `XR_E_UNKNOWN` blocks gets only its first block set to
  `XR_E_FREE1` (by either tree — the `XR_E_UNKNOWN` case does not test
  the magic), the rest of the run is skipped;
* a range of `XR_E_FREE1` blocks claimed by the by-count tree is set to
  `XR_E_FREE` in full;
* any other uniform state (and `XR_E_FREE1` claimed by the by-offset
  tree) emits one warning and leaves the map unchanged — the block is
  not set to `XR_E_MULT`. -/
theorem scan_allocbt_block_reconciliation (magic : Nat) (m : Bmap) (b e w : Nat)
    (hbe : b < e) :
    ((∀ x, x < e → b ≤ x → m x = .XR_E_UNKNOWN) →
      scan_allocbt_block_loop magic m b e w = (set_bmap m b .XR_E_FREE1, w)) ∧
    ((∀ x, x < e → b ≤ x → m x = .XR_E_FREE1) → isCntMagic magic = true →
      scan_allocbt_block_loop magic m b e w = (set_bmap_ext m b (e - b) .XR_E_FREE, w)) ∧
    (∀ s : XRState, (∀ x, x < e → b ≤ x → m x = s) → s ≠ .XR_E_UNKNOWN →
      (s = .XR_E_FREE1 → isCntMagic magic = false) →
      scan_allocbt_block_loop magic m b e w = (m, w + 1)) := by
  refine ⟨?_, ?_, ?_⟩
  · intro huni
    have hmb : m b = .XR_E_UNKNOWN := huni b hbe (le_refl b)
    have hrun : runLen m b e = e - b :=
      runLen_uniform m b e hbe (fun x hx hbx => by rw [huni x hx hbx, hmb])
    exact scan_allocbt_block_loop_run_unknown magic m b e w hbe hmb (by omega)
  · intro huni hcnt
    have hmb : m b = .XR_E_FREE1 := huni b hbe (le_refl b)
    have hrun : runLen m b e = e - b :=
      runLen_uniform m b e hbe (fun x hx hbx => by rw [huni x hx hbx, hmb])
    have := scan_allocbt_block_loop_run_free1_cnt magic m b e w hbe hmb hcnt (by omega)
    rwa [hrun] at this
  · intro s huni hs hfree1
    have hmb : m b = s := huni b hbe (le_refl b)
    have hrun : runLen m b e = e - b :=
      runLen_uniform m b e hbe (fun x hx hbx => by rw [huni x hx hbx, hmb])
    exact scan_allocbt_block_loop_run_other magic m b e w hbe (hmb ▸ hs)
      (fun h => hfree1 (hmb ▸ h)) (by omega)

/-- C1 (counterexample).  The claim states that any case other than
UNKNOWN-claimed-by-bno / FREE1-claimed-by-cnt "emits a warning and sets
the block's state to MULT".  For a valid single-block record starting at
block 10 whose block is already `XR_E_FREE`, claimed again by the
by-offset tree, the code warns but leaves the state `XR_E_FREE`: the
default case of the switch (scan.c:682-688) has no `set_bmap` call. -/
theorem scan_allocbt_block_reconciliation_cex :
    (scan_allocbt_block_loop XFS_ABTB_MAGIC (fun _ => .XR_E_FREE) 10 11 0).2 = 1 ∧
    (scan_allocbt_block_loop XFS_ABTB_MAGIC (fun _ => .XR_E_FREE) 10 11 0).1 10 = .XR_E_FREE ∧
    (scan_allocbt_block_loop XFS_ABTB_MAGIC (fun _ => .XR_E_FREE) 10 11 0).1 10 ≠
      .XR_E_MULT := by
  decide

/-- C1 (witness).  The amended reconciliation theorem applied to a
concrete record range `[10, 13)` of UNKNOWN blocks claimed by the
by-count tree: only block 10 becomes `XR_E_FREE1`. -/
theorem scan_allocbt_block_reconciliation_witness :
    scan_allocbt_block_loop XFS_ABTC_MAGIC (fun _ => .XR_E_UNKNOWN) 10 13 0 =
      (set_bmap (fun _ => .XR_E_UNKNOWN) 10 .XR_E_FREE1, 0) :=
  (scan_allocbt_block_reconciliation XFS_ABTC_MAGIC (fun _ => .XR_E_UNKNOWN) 10 13 0
    (by decide)).1 (by decide)

theorem scan_allocbt_block_loopF_warns_mono (magic : Nat) :
    ∀ fuel m b e w, w ≤ (scan_allocbt_block_loopF magic fuel m b e w).2 := by
  intro fuel
  induction fuel with
  | zero => intro m b e w; simp [scan_allocbt_block_loopF]
  | succ f ih =>
    intro m b e w
    simp only [scan_allocbt_block_loopF]
    split
    · split
      · apply ih
      · split
        · apply ih
        · exact le_trans (Nat.le_succ w) (ih _ _ _ _)
      · exact le_trans (Nat.le_succ w) (ih _ _ _ _)
    · simp

theorem scan_allocbt_rec_order_warns_mono (magic : Nat) (b len : Nat) (s : RecLoopSt) :
    s.st.warns ≤ (scan_allocbt_rec_order magic b len s).st.warns := by
  unfold scan_allocbt_rec_order
  split
  · split <;> simp [addWarn]
  · dsimp only
    split <;> simp [addWarn]

theorem scan_allocbt_rec_order_fdblocks (magic : Nat) (b len : Nat) (s : RecLoopSt) :
    (scan_allocbt_rec_order magic b len s).st.cnts.fdblocks =
      s.st.cnts.fdblocks + (if isBnoMagic magic = true then 0 else len) := by
  unfold scan_allocbt_rec_order
  split
  · split <;> simp [addWarn]
  · dsimp only
    split <;> simp [addWarn]

theorem scan_allocbt_rec_warns_mono (mp : MpAlloc) (magic : Nat) (s : RecLoopSt)
    (r : AllocRec) : s.st.warns ≤ (scan_allocbt_rec mp magic s r).st.warns := by
  simp only [scan_allocbt_rec]
  split
  · simp [addWarn]
  · split
    · simp [addWarn]
    · dsimp only
      refine le_trans (scan_allocbt_rec_order_warns_mono magic r.ar_startblock r.ar_blockcount s) ?_
      exact scan_allocbt_block_loopF_warns_mono magic _ _ _ _ _

theorem scan_allocbt_rec_fdblocks (mp : MpAlloc) (magic : Nat) (s : RecLoopSt)
    (r : AllocRec) (h : (scan_allocbt_rec mp magic s r).st.warns = s.st.warns) :
    (scan_allocbt_rec mp magic s r).st.cnts.fdblocks =
      s.st.cnts.fdblocks + (if isBnoMagic magic = true then 0 else r.ar_blockcount) := by
  simp only [scan_allocbt_rec] at h ⊢
  by_cases h1 : r.ar_startblock = 0 ∨ verify_agbno mp.agSize r.ar_startblock = false
  · rw [if_pos h1] at h
    simp [addWarn] at h
  · rw [if_neg h1] at h ⊢
    by_cases h2 : r.ar_blockcount = 0 ∨
        verify_agbno mp.agSize (r.ar_startblock + r.ar_blockcount - 1) = false
    · rw [if_pos h2] at h
      simp [addWarn] at h
    · rw [if_neg h2] at h ⊢
      exact scan_allocbt_rec_order_fdblocks magic r.ar_startblock r.ar_blockcount s

theorem scan_allocbt_recs_warns_mono (mp : MpAlloc) (magic : Nat) :
    ∀ (l : List AllocRec) (s : RecLoopSt),
      s.st.warns ≤ (l.foldl (scan_allocbt_rec mp magic) s).st.warns := by
  intro l
  induction l with
  | nil => intro s; simp
  | cons r rest ih =>
    intro s
    simp only [List.foldl_cons]
    exact le_trans (scan_allocbt_rec_warns_mono mp magic s r) (ih _)

theorem scan_allocbt_recs_fdblocks (mp : MpAlloc) (magic : Nat) :
    ∀ (l : List AllocRec) (s : RecLoopSt),
      (l.foldl (scan_allocbt_rec mp magic) s).st.warns = s.st.warns →
      (l.foldl (scan_allocbt_rec mp magic) s).st.cnts.fdblocks =
        s.st.cnts.fdblocks + (if isBnoMagic magic = true then 0 else sumLens l) := by
  intro l
  induction l with
  | nil => intro s _; simp [sumLens]
  | cons r rest ih =>
    intro s h
    simp only [List.foldl_cons] at h ⊢
    have h1 : s.st.warns ≤ (scan_allocbt_rec mp magic s r).st.warns :=
      scan_allocbt_rec_warns_mono mp magic s r
    have h2 := scan_allocbt_recs_warns_mono mp magic rest (scan_allocbt_rec mp magic s r)
    have hstep : (scan_allocbt_rec mp magic s r).st.warns = s.st.warns := by omega
    have hrest : (rest.foldl (scan_allocbt_rec mp magic) (scan_allocbt_rec mp magic s r)).st.warns
        = (scan_allocbt_rec mp magic s r).st.warns := by omega
    rw [ih _ hrest, scan_allocbt_rec_fdblocks mp magic s r hstep]
    simp only [sumLens, List.map_cons, List.sum_cons]
    split <;> omega

theorem scan_allocbt_hdr_warns_mono (magic : Nat) (blk : AllocBlock) (lvl bno suspect : Nat)
    (isroot : Bool) (st : ScanSt) :
    st.warns ≤ (scan_allocbt_hdr magic blk lvl bno suspect isroot st).1.warns := by
  simp only [scan_allocbt_hdr, addWarn]
  repeat' split
  all_goals simp
  all_goals omega

theorem scan_allocbt_hdr_eq (magic : Nat) (blk : AllocBlock) (lvl bno suspect : Nat)
    (isroot : Bool) (st : ScanSt)
    (h : (scan_allocbt_hdr magic blk lvl bno suspect isroot st).1.warns = st.warns) :
    scan_allocbt_hdr magic blk lvl bno suspect isroot st =
      ({ m := set_bmap st.m bno .XR_E_FS_MAP,
         cnts := { agffreeblks := st.cnts.agffreeblks,
                   agflongest := st.cnts.agflongest,
                   agfbtreeblks := st.cnts.agfbtreeblks + (if isroot = true then 0 else 1),
                   fdblocks := st.cnts.fdblocks + (if isroot = true then 0 else 1) },
         warns := st.warns }, 0, true) := by
  cases isroot <;>
    by_cases hA : blk.bb_magic ≠ magic <;>
      by_cases hS : suspect ≠ 0 <;>
        by_cases hL : blk.bb_level ≠ lvl <;>
          by_cases hC : get_bmap st.m bno = XRState.XR_E_UNKNOWN <;>
            simp_all [scan_allocbt_hdr, addWarn] <;> omega

theorem scan_allocbt_leaf_warns_mono (mp : MpAlloc) (magic : Nat) (blk : AllocBlock)
    (isroot : Bool) (hdr : Nat) (st : ScanSt) :
    st.warns ≤ (scan_allocbt_leaf mp magic blk isroot hdr st).warns := by
  simp only [scan_allocbt_leaf]
  split
  · exact le_trans (by simp [addWarn])
      (scan_allocbt_recs_warns_mono mp magic _ { st := addWarn st, lastblock := 0, lastcount := 0 })
  · exact scan_allocbt_recs_warns_mono mp magic _ { st := st, lastblock := 0, lastcount := 0 }

theorem scan_allocbt_leaf_fdblocks (mp : MpAlloc) (magic : Nat) (blk : AllocBlock)
    (isroot : Bool) (hdr : Nat) (st : ScanSt)
    (h : (scan_allocbt_leaf mp magic blk isroot hdr st).warns = st.warns) :
    (scan_allocbt_leaf mp magic blk isroot hdr st).cnts.fdblocks =
      st.cnts.fdblocks + (if isBnoMagic magic = true then 0
        else sumLens (blk.recs.take (clampNr mp.m_alloc_mxr0 mp.m_alloc_mnr0 isroot blk.bb_numrecs).1)) := by
  simp only [scan_allocbt_leaf] at h ⊢
  by_cases hc : hdr + (clampNr mp.m_alloc_mxr0 mp.m_alloc_mnr0 isroot blk.bb_numrecs).2 ≠ 0
  · rw [if_pos hc] at h ⊢
    exfalso
    have := scan_allocbt_recs_warns_mono mp magic
      (blk.recs.take (clampNr mp.m_alloc_mxr0 mp.m_alloc_mnr0 isroot blk.bb_numrecs).1)
      { st := addWarn st, lastblock := 0, lastcount := 0 }
    simp only [addWarn] at this h
    omega
  · rw [if_neg hc] at h ⊢
    exact scan_allocbt_recs_fdblocks mp magic _ { st := st, lastblock := 0, lastcount := 0 } h

theorem scan_allocbt_kids_warns_mono (mp : MpAlloc) (f : Nat → Nat → ScanSt → ScanSt)
    (hf : ∀ c s st, st.warns ≤ (f c s st).warns) :
    ∀ (l : List Nat) (suspect : Nat) (st : ScanSt),
      st.warns ≤ (scan_allocbt_kids mp f l suspect st).warns := by
  intro l
  induction l with
  | nil => intro suspect st; simp [scan_allocbt_kids]
  | cons c rest ih =>
    intro suspect st
    simp only [scan_allocbt_kids]
    refine le_trans ?_ (ih suspect _)
    split
    · exact hf c suspect st
    · exact le_refl _

theorem scan_allocbt_kids_fdblocks (mp : MpAlloc) (f : Nat → Nat → ScanSt → ScanSt)
    (g : Nat → Nat)
    (hf : ∀ c s st, st.warns ≤ (f c s st).warns)
    (hlaw : ∀ c s st, (f c s st).warns = st.warns →
      (f c s st).cnts.fdblocks = st.cnts.fdblocks + g c) :
    ∀ (l : List Nat) (suspect : Nat) (st : ScanSt),
      (scan_allocbt_kids mp f l suspect st).warns = st.warns →
      (scan_allocbt_kids mp f l suspect st).cnts.fdblocks =
        st.cnts.fdblocks + fdContrib_kids mp g l := by
  intro l
  induction l with
  | nil => intro suspect st _; simp [scan_allocbt_kids, fdContrib_kids]
  | cons c rest ih =>
    intro suspect st h
    simp only [scan_allocbt_kids] at h ⊢
    simp only [fdContrib_kids]
    split at h
    · rename_i hc
      simp only [if_pos hc]
      have h1 := hf c suspect st
      have h2 := scan_allocbt_kids_warns_mono mp f hf rest suspect (f c suspect st)
      have hstep : (f c suspect st).warns = st.warns := by omega
      have hrest : (scan_allocbt_kids mp f rest suspect (f c suspect st)).warns =
          (f c suspect st).warns := by omega
      rw [ih suspect _ hrest, hlaw c suspect st hstep]
      omega
    · rename_i hc
      simp only [if_neg hc]
      rw [ih suspect st h]
      omega

theorem scan_allocbt_go_warns_mono (mp : MpAlloc) (magic : Nat) (disk : AllocDisk) :
    ∀ (lvl bno suspect : Nat) (isroot : Bool) (st : ScanSt),
      st.warns ≤ (scan_allocbt_go mp magic disk lvl bno suspect isroot st).warns := by
  intro lvl
  induction lvl with
  | zero =>
    intro bno suspect isroot st
    have hm := scan_allocbt_hdr_warns_mono magic (disk bno) 0 bno suspect isroot st
    rcases hs : scan_allocbt_hdr magic (disk bno) 0 bno suspect isroot st with ⟨st1, hdr, b⟩
    rw [hs] at hm
    simp only [scan_allocbt_go, hs]
    cases b
    · exact hm
    · exact le_trans hm (scan_allocbt_leaf_warns_mono mp magic (disk bno) isroot hdr st1)
  | succ lvl ih =>
    intro bno suspect isroot st
    have hm := scan_allocbt_hdr_warns_mono magic (disk bno) (lvl + 1) bno suspect isroot st
    rcases hs : scan_allocbt_hdr magic (disk bno) (lvl + 1) bno suspect isroot st with ⟨st1, hdr, b⟩
    rw [hs] at hm
    simp only [scan_allocbt_go, hs]
    cases b
    · exact hm
    · simp only [if_true]
      refine le_trans hm ?_
      split
      · split <;> simp [addWarn]
      · refine le_trans ?_ (scan_allocbt_kids_warns_mono mp _
          (fun c s stx => ih c s false stx) _ _ _)
        split <;> simp [addWarn]

theorem scan_allocbt_go_fdblocks (mp : MpAlloc) (magic : Nat) (disk : AllocDisk) :
    ∀ (lvl bno suspect : Nat) (isroot : Bool) (st : ScanSt),
      (scan_allocbt_go mp magic disk lvl bno suspect isroot st).warns = st.warns →
      (scan_allocbt_go mp magic disk lvl bno suspect isroot st).cnts.fdblocks =
        st.cnts.fdblocks + fdContrib mp magic disk lvl bno isroot := by
  intro lvl
  induction lvl with
  | zero =>
    intro bno suspect isroot st h
    have hm := scan_allocbt_hdr_warns_mono magic (disk bno) 0 bno suspect isroot st
    rcases hs : scan_allocbt_hdr magic (disk bno) 0 bno suspect isroot st with ⟨st1, hdr, b⟩
    rw [hs] at hm
    have hm2 : st.warns ≤ st1.warns := hm
    simp only [scan_allocbt_go, hs] at h ⊢
    cases b
    · have heq := scan_allocbt_hdr_eq magic (disk bno) 0 bno suspect isroot st
        (by rw [hs]; exact h)
      rw [hs] at heq
      simp at heq
    · simp only [if_true] at h ⊢
      have hlm := scan_allocbt_leaf_warns_mono mp magic (disk bno) isroot hdr st1
      have h1 : st1.warns = st.warns := by omega
      have heq := scan_allocbt_hdr_eq magic (disk bno) 0 bno suspect isroot st
        (by rw [hs]; exact h1)
      rw [hs] at heq
      injection heq with ha hb
      injection hb with hb1 hb2
      subst ha
      subst hb1
      rw [scan_allocbt_leaf_fdblocks mp magic (disk bno) isroot 0 _ (by exact h)]
      simp only [fdContrib]
      cases isroot <;> cases hbm : isBnoMagic magic <;> simp [hbm] <;> omega
  | succ lvl ih =>
    intro bno suspect isroot st h
    have hm := scan_allocbt_hdr_warns_mono magic (disk bno) (lvl + 1) bno suspect isroot st
    rcases hs : scan_allocbt_hdr magic (disk bno) (lvl + 1) bno suspect isroot st with ⟨st1, hdr, b⟩
    rw [hs] at hm
    have hm2 : st.warns ≤ st1.warns := hm
    simp only [scan_allocbt_go, hs] at h ⊢
    cases b
    · have heq := scan_allocbt_hdr_eq magic (disk bno) (lvl + 1) bno suspect isroot st
        (by rw [hs]; exact h)
      rw [hs] at heq
      simp at heq
    · simp only [if_true] at h ⊢
      have hkm := scan_allocbt_kids_warns_mono mp
        (fun cbno s => scan_allocbt_go mp magic disk lvl cbno s false)
        (fun c s stx => scan_allocbt_go_warns_mono mp magic disk lvl c s false stx)
      by_cases hE : hdr + (clampNr mp.m_alloc_mxr1 mp.m_alloc_mnr1 isroot
          (disk bno).bb_numrecs).2 ≠ 0
      · exfalso
        simp only [if_pos hE] at h
        split at h
        · simp only [addWarn] at h
          omega
        · have hk := hkm ((disk bno).ptrs.take
              (clampNr mp.m_alloc_mxr1 mp.m_alloc_mnr1 isroot (disk bno).bb_numrecs).1)
            (suspect + 1) (addWarn st1)
          simp only [addWarn] at hk h
          omega
      · simp only [if_neg hE] at h ⊢
        rw [if_neg (by tauto)] at h ⊢
        have hk := hkm ((disk bno).ptrs.take
            (clampNr mp.m_alloc_mxr1 mp.m_alloc_mnr1 isroot (disk bno).bb_numrecs).1)
          (if suspect ≠ 0 then 0 else suspect) st1
        have h1 : st1.warns = st.warns := by omega
        have heq := scan_allocbt_hdr_eq magic (disk bno) (lvl + 1) bno suspect isroot st
          (by rw [hs]; exact h1)
        rw [hs] at heq
        injection heq with ha hb
        injection hb with hb1 hb2
        subst ha
        subst hb1
        rw [scan_allocbt_kids_fdblocks mp
          (fun cbno s => scan_allocbt_go mp magic disk lvl cbno s false)
          (fun c => fdContrib mp magic disk lvl c false)
          (fun c s stx => scan_allocbt_go_warns_mono mp magic disk lvl c s false stx)
          (fun c s stx hw => ih c s false stx hw) _ _ _ (by rw [h])]
        simp only [fdContrib]
        cases isroot <;> simp <;> omega

theorem addWarn_ite_warns_mono (c : Prop) [Decidable c] (st : ScanSt) :
    st.warns ≤ (if c then addWarn st else st).warns := by
  split <;> simp [addWarn]

theorem scan_freelist_walk_warns_mono (mp : MpAlloc) (ag : AgInput) :
    ∀ (fuel i : Nat) (m : Bmap) (count warns : Nat) (visited : List Nat),
      warns ≤ (scan_freelist_walk mp ag fuel i m count warns visited).2.2.1 := by
  intro fuel
  induction fuel with
  | zero => intro i m count warns visited; simp [scan_freelist_walk]
  | succ f ih =>
    intro i m count warns visited
    simp only [scan_freelist_walk]
    split
    · split <;> simp
    · refine le_trans ?_ (ih _ _ _ _ _)
      split <;> simp

theorem scan_freelist_fdblocks (mp : MpAlloc) (ag : AgInput) (st : ScanSt)
    (h : (scan_freelist mp ag st).st.warns = st.warns) :
    (scan_freelist mp ag st).st.cnts.fdblocks = st.cnts.fdblocks + ag.agf_flcount := by
  unfold scan_freelist at h ⊢
  set stX := (if ag.hdrDistinct = true then
    ({ st with m := set_bmap st.m ag.agflBlock XRState.XR_E_FS_MAP } : ScanSt) else st) with hstX
  have hwX : stX.warns = st.warns := by rw [hstX]; split <;> rfl
  have hcX : stX.cnts = st.cnts := by rw [hstX]; split <;> rfl
  by_cases h0 : ag.agf_flcount = 0
  · simp only [if_pos h0] at h ⊢
    rw [h0, hcX]
    omega
  · simp only [if_neg h0] at h ⊢
    by_cases hNM : ag.noModify = true ∧
        (ag.agf_flfirst ≥ ag.agflSize ∨ ag.agf_fllast ≥ ag.agflSize)
    · rw [if_pos hNM] at h
      simp only [addWarn] at h
      omega
    · rw [if_neg hNM] at h ⊢
      have hwm := scan_freelist_walk_warns_mono mp ag ag.agflSize ag.agf_flfirst stX.m 0
        stX.warns []
      rcases hW : scan_freelist_walk mp ag ag.agflSize ag.agf_flfirst stX.m 0 stX.warns []
        with ⟨wm, wcount, wwarns, wvis⟩
      rw [hW] at hwm h
      dsimp only at h hwm ⊢
      split at h
      · omega
      · rename_i hmism
        simp only [Decidable.not_not] at hmism
        rw [hmism, hcX]

theorem scan_freelist_warns_mono (mp : MpAlloc) (ag : AgInput) (st : ScanSt) :
    st.warns ≤ (scan_freelist mp ag st).st.warns := by
  unfold scan_freelist
  set stX := (if ag.hdrDistinct = true then
    ({ st with m := set_bmap st.m ag.agflBlock XRState.XR_E_FS_MAP } : ScanSt) else st) with hstX
  have hwX : stX.warns = st.warns := by rw [hstX]; split <;> rfl
  by_cases h0 : ag.agf_flcount = 0
  · simp only [if_pos h0]
    omega
  · simp only [if_neg h0]
    by_cases hNM : ag.noModify = true ∧
        (ag.agf_flfirst ≥ ag.agflSize ∨ ag.agf_fllast ≥ ag.agflSize)
    · rw [if_pos hNM]
      simp only [addWarn]
      omega
    · rw [if_neg hNM]
      have hwm := scan_freelist_walk_warns_mono mp ag ag.agflSize ag.agf_flfirst stX.m 0
        stX.warns []
      rcases hW : scan_freelist_walk mp ag ag.agflSize ag.agf_flfirst stX.m 0 stX.warns []
        with ⟨wm, wcount, wwarns, wvis⟩
      rw [hW] at hwm
      dsimp only at hwm ⊢
      split <;> omega

theorem validate_agf_bno_warns_mono (mp : MpAlloc) (ag : AgInput) (st : ScanSt) :
    st.warns ≤ (validate_agf_bno mp ag st).warns := by
  unfold validate_agf_bno
  split
  · exact scan_allocbt_go_warns_mono mp (bnoTreeMagic mp) ag.disk _ _ 0 true st
  · simp [addWarn]

theorem validate_agf_cnt_warns_mono (mp : MpAlloc) (ag : AgInput) (st : ScanSt) :
    st.warns ≤ (validate_agf_cnt mp ag st).warns := by
  unfold validate_agf_cnt
  split
  · exact scan_allocbt_go_warns_mono mp (cntTreeMagic mp) ag.disk _ _ 0 true st
  · simp [addWarn]

theorem validate_agf_cmp_warns_mono (ag : AgInput) (st : ScanSt) :
    st.warns ≤ (validate_agf_cmp ag st).warns := by
  simp only [validate_agf_cmp]
  split <;> split <;> split <;> simp [addWarn] <;> omega

theorem validate_agf_cmp_cnts (ag : AgInput) (st : ScanSt) :
    (validate_agf_cmp ag st).cnts = st.cnts := by
  simp only [validate_agf_cmp]
  split <;> split <;> split <;> simp [addWarn]

theorem validate_agf_bno_fdblocks (mp : MpAlloc) (ag : AgInput) (st : ScanSt)
    (h : (validate_agf_bno mp ag st).warns = st.warns) :
    (validate_agf_bno mp ag st).cnts.fdblocks = st.cnts.fdblocks +
      fdContrib mp (bnoTreeMagic mp) ag.disk (ag.bnoLevels - 1) ag.bnoRoot true := by
  unfold validate_agf_bno at h ⊢
  split at h
  · rename_i hc
    rw [if_pos hc]
    exact scan_allocbt_go_fdblocks mp (bnoTreeMagic mp) ag.disk _ _ 0 true st h
  · simp [addWarn] at h

theorem validate_agf_cnt_fdblocks (mp : MpAlloc) (ag : AgInput) (st : ScanSt)
    (h : (validate_agf_cnt mp ag st).warns = st.warns) :
    (validate_agf_cnt mp ag st).cnts.fdblocks = st.cnts.fdblocks +
      fdContrib mp (cntTreeMagic mp) ag.disk (ag.cntLevels - 1) ag.cntRoot true := by
  unfold validate_agf_cnt at h ⊢
  split at h
  · rename_i hc
    rw [if_pos hc]
    exact scan_allocbt_go_fdblocks mp (cntTreeMagic mp) ag.disk _ _ 0 true st h
  · simp [addWarn] at h

theorem scan_ag_fdblocks (mp : MpAlloc) (ag : AgInput) (m0 : Bmap)
    (h : (scan_ag mp ag m0).warns = 0) :
    (scan_ag mp ag m0).cnts.fdblocks = ag.agf_flcount +
      fdContrib mp (bnoTreeMagic mp) ag.disk (ag.bnoLevels - 1) ag.bnoRoot true +
      fdContrib mp (cntTreeMagic mp) ag.disk (ag.cntLevels - 1) ag.cntRoot true := by
  unfold scan_ag validate_agf at h ⊢
  set st0 : ScanSt := { m := m0, cnts := {}, warns := 0 } with hst0
  set st1 := (scan_freelist mp ag st0).st with hst1
  set st2 := validate_agf_bno mp ag st1 with hst2
  set st3 := validate_agf_cnt mp ag st2 with hst3
  have m1 := scan_freelist_warns_mono mp ag st0
  have m2 := validate_agf_bno_warns_mono mp ag st1
  have m3 := validate_agf_cnt_warns_mono mp ag st2
  have m4 := validate_agf_cmp_warns_mono ag st3
  rw [← hst1] at m1
  rw [← hst2] at m2
  rw [← hst3] at m3
  have hw0 : st0.warns = 0 := rfl
  have hw3 : st3.warns = 0 := by omega
  have hw2 : st2.warns = 0 := by omega
  have hw1 : st1.warns = 0 := by omega
  rw [validate_agf_cmp_cnts, hst3]
  rw [validate_agf_cnt_fdblocks mp ag st2 (by rw [← hst3]; omega)]
  rw [hst2]
  rw [validate_agf_bno_fdblocks mp ag st1 (by rw [← hst2]; omega)]
  rw [hst1]
  rw [scan_freelist_fdblocks mp ag st0 (by rw [← hst1]; omega)]
  have hc0 : st0.cnts.fdblocks = 0 := rfl
  omega

theorem scan_ags_fdblocks_aux (mp : MpAlloc) :
    ∀ (ags : List (AgInput × Bmap)),
      ((ags.map (fun p => scan_ag mp p.1 p.2)).map (fun st => st.warns)).sum = 0 →
      ((ags.map (fun p => scan_ag mp p.1 p.2)).map (fun st => st.cnts.fdblocks)).sum =
        (ags.map (fun p => agFdContrib mp p.1)).sum := by
  intro ags
  induction ags with
  | nil => intro _; simp
  | cons a rest ih =>
    intro h
    simp only [List.map_cons, List.sum_cons] at h ⊢
    have ha : (scan_ag mp a.1 a.2).warns = 0 := by omega
    rw [scan_ag_fdblocks mp a.1 a.2 ha, ih (by omega)]
    simp [agFdContrib]

/-- C2 (amended).  What the computed `fdblocks` total that `scan_ags`
compares against `sb_fdblocks` (scan.c:1779-1804) actually is: on a
warning-free scan it equals, summed over the AGs, the AGFL walked count
(= `agf_flcount`, scan.c:1470) plus one for every non-root freespace
btree block (scan.c:573-576) plus the lengths of the by-count leaf
records (scan.c:652) — not the number of blocks left in state
`XR_E_FREE` or `XR_E_FREE1`, which can differ even on a warning-free
image (see the counterexample). -/
theorem scan_ags_fdblocks_reconciliation (mp : MpAlloc) (ags : List (AgInput × Bmap))
    (sb_fdblocks : Nat) (h : (scan_ags mp ags sb_fdblocks).2.1 = 0) :
    (scan_ags mp ags sb_fdblocks).1 = (ags.map (fun p => agFdContrib mp p.1)).sum := by
  unfold scan_ags at h ⊢
  dsimp only at h ⊢
  have hz : ((ags.map (fun p => scan_ag mp p.1 p.2)).map (fun st => st.warns)).sum = 0 := by
    omega
  exact scan_ags_fdblocks_aux mp ags hz

/-- C2 (witness).  The amended law evaluated on the concrete test image:
the computed `fdblocks` is 7 = 0 (AGFL) + 1 + 1 (non-root leaves of the
two trees) + 5 (the by-count record length). -/
theorem scan_ags_fdblocks_reconciliation_witness :
    (scan_ags cexMp [(cexAg, cexM0)] 7).1 =
      ([(cexAg, cexM0)].map (fun p => agFdContrib cexMp p.1)).sum :=
  scan_ags_fdblocks_reconciliation cexMp [(cexAg, cexM0)] 7 (by decide)

/-- C2 (counterexample).  On the concrete test image the scan emits no
warning at all (the image is accepted, every stored counter matches,
and the superblock `sb_fdblocks` of 7 matches the computed total), yet
the number of blocks whose final state is `XR_E_FREE` or `XR_E_FREE1`
is 2 (block 10 is FREE, block 11 is FREE1, blocks 12-14 stay UNKNOWN
because the per-record loop advances by the whole run after setting a
single block) while the computed `fdblocks` is 7 (the two non-root
btree blocks are counted, and the by-count record contributes its full
length).  The claimed equality fails. -/
theorem scan_ags_fdblocks_reconciliation_cex :
    (scan_ags cexMp [(cexAg, cexM0)] 7).2.1 = 0 ∧
    ((scan_ags cexMp [(cexAg, cexM0)] 7).2.2.map
      (fun st => countFreeStates st.m cexMp.agSize)).sum = 2 ∧
    (scan_ags cexMp [(cexAg, cexM0)] 7).1 = 7 ∧
    ((scan_ags cexMp [(cexAg, cexM0)] 7).2.2.map
      (fun st => countFreeStates st.m cexMp.agSize)).sum ≠
      (scan_ags cexMp [(cexAg, cexM0)] 7).1 := by
  decide

/-- C10.  Suspect-flag policy at interior nodes of the freespace and
inode tree visitors: a node that inherited a set suspect flag but has no
header errors of its own (matching magic and level, record count in
bounds; for the freespace visitor also an unclaimed own block) descends
with the suspect flag reset to zero, so suspicion never propagates past
a clean interior node; and a node with a header error while already
suspect never descends into any child. -/
theorem interior_suspect_policy (suspect : Nat) (blockState : XRState)
    (mOk lOk bOk : Bool) :
    (suspect ≠ 0 → mOk = true → lOk = true → bOk = true →
      blockState = .XR_E_UNKNOWN →
      scan_allocbt_interior_descend mOk lOk blockState bOk suspect = some 0 ∧
      scan_inobt_interior_descend mOk lOk bOk suspect = some 0) ∧
    (suspect ≠ 0 → (mOk = false ∨ lOk = false ∨ bOk = false) →
      scan_allocbt_interior_descend mOk lOk blockState bOk suspect = none ∧
      scan_inobt_interior_descend mOk lOk bOk suspect = none) := by
  constructor
  · intro hs hm hl hb hstate
    subst hm; subst hl; subst hb; subst hstate
    simp [scan_allocbt_interior_descend, scan_inobt_interior_descend, hs]
  · intro hs hbad
    by_cases hso : blockState = XRState.XR_E_UNKNOWN <;>
      cases mOk <;> cases lOk <;> cases bOk <;>
        simp_all [scan_allocbt_interior_descend, scan_inobt_interior_descend, hs]

/-- C10 (witness).  A clean interior node (good magic, level, bounds,
unclaimed block) inheriting suspect = 1 descends with suspect 0 in both
visitors. -/
theorem interior_suspect_policy_witness :
    scan_allocbt_interior_descend true true .XR_E_UNKNOWN true 1 = some 0 ∧
    scan_inobt_interior_descend true true true 1 = some 0 :=
  (interior_suspect_policy 1 .XR_E_UNKNOWN true true true).1 (by decide) rfl rfl rfl rfl

/-- C4.  Block-claim table of `scan_bmapbt` in normal mode: the free-ish
states become `XR_E_INUSE` silently; `XR_E_FS_MAP` and `XR_E_INUSE`
become `XR_E_MULT` with a warning; `XR_E_MULT` and `XR_E_INUSE_FS` are
set to `XR_E_MULT` with a warning; and the claim switch never aborts
processing of the node. -/
theorem scan_bmapbt_claim_table :
    (scan_bmapbt_claim_write .XR_E_UNKNOWN = some .XR_E_INUSE ∧
     scan_bmapbt_claim_write .XR_E_FREE1 = some .XR_E_INUSE ∧
     scan_bmapbt_claim_write .XR_E_FREE = some .XR_E_INUSE ∧
     scan_bmapbt_claim_warns .XR_E_UNKNOWN = false ∧
     scan_bmapbt_claim_warns .XR_E_FREE1 = false ∧
     scan_bmapbt_claim_warns .XR_E_FREE = false) ∧
    (scan_bmapbt_claim_write .XR_E_FS_MAP = some .XR_E_MULT ∧
     scan_bmapbt_claim_write .XR_E_INUSE = some .XR_E_MULT ∧
     scan_bmapbt_claim_warns .XR_E_FS_MAP = true ∧
     scan_bmapbt_claim_warns .XR_E_INUSE = true) ∧
    (scan_bmapbt_claim_write .XR_E_MULT = some .XR_E_MULT ∧
     scan_bmapbt_claim_write .XR_E_INUSE_FS = some .XR_E_MULT ∧
     scan_bmapbt_claim_warns .XR_E_MULT = true ∧
     scan_bmapbt_claim_warns .XR_E_INUSE_FS = true) ∧
    (∀ (m : Bmap) (b : Nat), scan_bmapbt_claim m b ≠ .abort) := by
  refine ⟨by decide, by decide, by decide, ?_⟩
  intro m b h
  unfold scan_bmapbt_claim at h
  split at h <;> exact BmapbtStep.noConfusion h

theorem visitorOp_preserves_mult (op : ScanOp) (h : op.isFreelist = false) :
    op.applyOp .XR_E_MULT = .XR_E_MULT := by
  cases op <;>
    simp_all [ScanOp.applyOp, ScanOp.writeVal, ScanOp.isFreelist,
      scan_allocbt_node_claim_write, scan_inobt_claim_write, scan_bmapbt_claim_write]

theorem freelistOp_no_mult (op : ScanOp) (h : op.isFreelist = true) (s : XRState) :
    op.writeVal s ≠ some .XR_E_MULT := by
  cases op <;> simp_all [ScanOp.writeVal, ScanOp.isFreelist]

theorem applyTrace_singleton (op : ScanOp) (s : XRState) :
    applyTrace [op] s = (op.writeVal s).getD s := rfl

theorem applyTrace_append (t1 t2 : List ScanOp) (s : XRState) :
    applyTrace (t1 ++ t2) s = applyTrace t2 (applyTrace t1 s) := by
  simp [applyTrace, List.foldl_append]

/-- C3.  Once an operation of the scan writes `XR_E_MULT` into a block's
state, no later claim operation — freespace-tree, inode-tree,
free-inode-tree, extent-tree visitor or the AGFL walk — changes that
block's state to anything other than `XR_E_MULT`.  Traces are of the
shape `fl ++ vs` (all AGFL-walk operations precede all visitor
operations, the order `scan_ag` imposes); only visitor operations can
write `XR_E_MULT`, and every visitor operation maps `XR_E_MULT` to
`XR_E_MULT`. -/
theorem once_mult_always_mult (fl vs : List ScanOp)
    (hfl : ∀ op ∈ fl, op.isFreelist = true) (hvs : ∀ op ∈ vs, op.isFreelist = false)
    (s0 : XRState) (k : Nat) (hk : k < (fl ++ vs).length)
    (hset : ((fl ++ vs).get ⟨k, hk⟩).writeVal (applyTrace ((fl ++ vs).take k) s0) =
      some .XR_E_MULT) :
    ∀ j, k < j → applyTrace ((fl ++ vs).take j) s0 = .XR_E_MULT := by
  simp only [List.get_eq_getElem] at hset
  have hknf : (fl ++ vs)[k].isFreelist = false := by
    cases hb : (fl ++ vs)[k].isFreelist
    · rfl
    · exact absurd hset (freelistOp_no_mult _ hb _)
  have hkfl : fl.length ≤ k := by
    by_contra hlt
    push_neg at hlt
    have hmem : (fl ++ vs)[k] ∈ fl := by
      rw [List.getElem_append_left hlt]
      exact List.getElem_mem hlt
    exact absurd (hfl _ hmem) (by rw [hknf]; simp)
  have hbase : applyTrace ((fl ++ vs).take (k + 1)) s0 = .XR_E_MULT := by
    rw [List.take_succ, List.getElem?_eq_getElem hk]
    simp only [Option.toList_some]
    rw [applyTrace_append, applyTrace_singleton, hset]
    rfl
  intro j hj
  have hj1 : k + 1 ≤ j := hj
  clear hj
  induction j, hj1 using Nat.le_induction with
  | base => exact hbase
  | succ n hn ihn =>
    rw [List.take_succ]
    cases hg : (fl ++ vs)[n]? with
    | none =>
      simp only [hg, Option.toList_none, List.append_nil]
      exact ihn
    | some op =>
      have hop : op.isFreelist = false := by
        have hnfl : fl.length ≤ n := by omega
        rw [List.getElem?_append_right hnfl] at hg
        rw [List.getElem?_eq_some] at hg
        obtain ⟨hlt, hh⟩ := hg
        exact hvs op (hh ▸ List.getElem_mem hlt)
      simp only [hg, Option.toList_some]
      rw [applyTrace_append]
      rw [ihn]
      simpa [applyTrace] using visitorOp_preserves_mult op hop

/-- C3 (witness).  A concrete trace: an AGFL-walk mark to `XR_E_FREE`,
then a freespace-node claim of the same (now non-UNKNOWN) block, which
writes `XR_E_MULT`, then an inode-chunk claim: the block stays
`XR_E_MULT` to the end of the trace. -/
theorem once_mult_always_mult_witness :
    applyTrace (([ScanOp.freelistBlk true] ++
      [ScanOp.allocbtNodeClaim, ScanOp.inoChunkBlk false]).take 3)
      XRState.XR_E_UNKNOWN = XRState.XR_E_MULT :=
  once_mult_always_mult [ScanOp.freelistBlk true]
    [ScanOp.allocbtNodeClaim, ScanOp.inoChunkBlk false]
    (by decide) (by decide) XRState.XR_E_UNKNOWN 1 (by decide) (by decide) 3 (by decide)

/-- C9 (counterexample).  A root interior node with zero records passes
the record-count bounds check (the minimum applies to non-root nodes
only), yet the trailing cursor update reads key index
`numrecs - 1 = -1`, which is outside the node's key array. -/
theorem scan_bmapbt_trailing_key_cex :
    scan_bmapbt_interior_numrecs_ok 1 9 true 0 = true ∧
    ((-1 : Int) ∈ scan_bmapbt_trailing_key_reads 0) ∧
    ¬(0 ≤ (-1 : Int) ∧ (-1 : Int) < ((0 : Nat) : Int)) := by
  decide

/-- C9 (amended).  The trailing cursor update of `scan_bmapbt` reads the
parent keys at indices 0 and `numrecs - 1`; both indices lie within the
node's key array for every record count accepted by the bounds checks
that is at least 1 — which every accepted non-root count is whenever
`m_bmap_dmnr[1] ≥ 1` — but a root node with zero records is accepted
and reads index `-1`. -/
theorem scan_bmapbt_trailing_key_bounds (dmnr1 dmxr1 numrecs : Nat) (isroot : Bool)
    (hok : scan_bmapbt_interior_numrecs_ok dmnr1 dmxr1 isroot numrecs = true) :
    (1 ≤ numrecs →
      ∀ i ∈ scan_bmapbt_trailing_key_reads numrecs, 0 ≤ i ∧ i < (numrecs : Int)) ∧
    (isroot = false → 1 ≤ dmnr1 → 1 ≤ numrecs) := by
  simp only [scan_bmapbt_interior_numrecs_ok, decide_eq_true_eq, not_or, not_and,
    not_lt] at hok
  constructor
  · intro hpos i hi
    simp only [scan_bmapbt_trailing_key_reads, List.mem_cons, List.mem_singleton,
      List.not_mem_nil, or_false] at hi
    rcases hi with rfl | rfl
    · constructor
      · omega
      · exact_mod_cast hpos
    · constructor
      · omega
      · omega
  · intro hroot hmnr
    have := hok.2
    rw [hroot] at this
    have h2 := this rfl
    omega

/-- C9 (witness).  The amended bounds applied to an accepted non-root
node with 3 records: the trailing key read at index `numrecs - 1 = 2`
lands in `[0, 3)`. -/
theorem scan_bmapbt_trailing_key_bounds_witness :
    (2 : Int) ∈ scan_bmapbt_trailing_key_reads 3 ∧
    (0 ≤ (2 : Int) ∧ (2 : Int) < ((3 : Nat) : Int)) :=
  ⟨by decide,
    (scan_bmapbt_trailing_key_bounds 1 9 3 false (by decide)).1 (by decide) 2 (by decide)⟩

/-- C6 (counterexample).  A chunk whose starting inode 8 violates the
alignment constraint (16 inodes per block, so chunks must start at
block boundaries, but 8 mod 16 ≠ 0) and whose inode range is in bounds
is NOT skipped: the check warns and marks the record suspect but
returns `skip = false`, so the caller proceeds to import it. -/
theorem verify_ino_chunk_align_cex :
    ino_chunk_align_bad cexInoP 8 = true ∧
    (verify_single_ino_chunk_align cexInoP 8 0).2.1 = false ∧
    (verify_single_ino_chunk_align cexInoP 8 0).1 = 1 := by
  decide

/-- C6 (amended).  `verify_single_ino_chunk_align` returns `skip = true`
exactly when the starting or ending inode number is out of bounds for
the AG; a record that only violates the alignment constraints is warned
about and its suspect count incremented, but `skip` stays false and the
caller imports the chunk. -/
theorem verify_ino_chunk_align_spec (p : InoParams) (ino suspect : Nat) :
    ((verify_single_ino_chunk_align p ino suspect).2.1 = true ↔
      (verify_aginum_bad p ino = true ∨
        verify_aginum_bad p (ino + XFS_INODES_PER_CHUNK - 1) = true)) ∧
    (ino_chunk_align_bad p ino = true →
      verify_aginum_bad p ino = false →
      verify_aginum_bad p (ino + XFS_INODES_PER_CHUNK - 1) = false →
      (verify_single_ino_chunk_align p ino suspect).2.1 = false ∧
      (verify_single_ino_chunk_align p ino suspect).1 = suspect + 1 ∧
      (verify_single_ino_chunk_align p ino suspect).2.2 = 1) := by
  unfold verify_single_ino_chunk_align
  constructor
  · by_cases h1 : ino_chunk_align_bad p ino = true <;>
      by_cases h2 : verify_aginum_bad p ino = true <;>
        by_cases h3 : verify_aginum_bad p (ino + XFS_INODES_PER_CHUNK - 1) = true <;>
          simp_all
  · intro h1 h2 h3
    simp [h1, h2, h3]

/-- C6 (witness).  The amended characterisation applied to the
counterexample record: aligned badly, in bounds, hence not skipped and
marked suspect. -/
theorem verify_ino_chunk_align_spec_witness :
    (verify_single_ino_chunk_align cexInoP 8 0).2.1 = false ∧
    (verify_single_ino_chunk_align cexInoP 8 0).1 = 0 + 1 ∧
    (verify_single_ino_chunk_align cexInoP 8 0).2.2 = 1 :=
  (verify_ino_chunk_align_spec cexInoP 8 0).2 (by decide) (by decide) (by decide)

/-- C7 (counterexample).  A read failure on a subtree btree block is
handled by `do_error`, which terminates the process: neither walker
warns and returns a per-subtree failure, contradicting the claim that
the failure is confined to that subtree. -/
theorem scan_tree_read_fail_cex :
    scan_sbtree_read false ReadResult.readFail = WalkerOutcome.fatalError ∧
    scan_lbtree_read ReadResult.readFail = LbtreeOutcome.fatalError := by
  decide

/-- C7 (amended).  Read handling of the two walkers: a failed read is
fatal to the whole process (`do_error`) in both `scan_sbtree` and
`scan_lbtree`; only CRC/corruption errors are non-fatal — `scan_sbtree`
warns and visits the node as suspect, `scan_lbtree` warns on a bad CRC
and visits with `badcrc` set (forcing writeback in modify mode), while
a verifier-corruption error is not separately tested there. -/
theorem scan_tree_read_handling (suspectIn : Bool) (r : ReadResult) :
    (scan_sbtree_read suspectIn r = .fatalError ↔ r = .readFail) ∧
    (scan_lbtree_read r = .fatalError ↔ r = .readFail) ∧
    scan_sbtree_read suspectIn .badCrc = .visit true ∧
    scan_sbtree_read suspectIn .corrupt = .visit true ∧
    scan_sbtree_read suspectIn .ok = .visit suspectIn ∧
    scan_lbtree_read .badCrc = .visit true ∧
    scan_lbtree_read .corrupt = .visit false := by
  cases r <;> cases suspectIn <;> decide

theorem scan_freelist_walk_marks (mp : MpAlloc) (ag : AgInput) :
    ∀ (fuel i : Nat) (m : Bmap) (count warns : Nat) (visited : List Nat),
      (∀ b ∈ visited, verify_agbno mp.agSize b = true → m b = .XR_E_FREE) →
      ∀ b ∈ (scan_freelist_walk mp ag fuel i m count warns visited).2.2.2,
        verify_agbno mp.agSize b = true →
        (scan_freelist_walk mp ag fuel i m count warns visited).1 b = .XR_E_FREE := by
  intro fuel
  induction fuel with
  | zero => intro i m count warns visited hinv; exact hinv
  | succ f ih =>
    intro i m count warns visited hinv
    simp only [scan_freelist_walk]
    have hinv2 : ∀ b ∈ visited ++ [ag.freelist i],
        verify_agbno mp.agSize b = true →
        (if verify_agbno mp.agSize (ag.freelist i) = true
          then (set_bmap m (ag.freelist i) .XR_E_FREE, warns) else (m, warns + 1)).1 b =
          .XR_E_FREE := by
      intro b hb hvb
      rcases List.mem_append.mp hb with hb | hb
      · split
        · simp only [set_bmap]
          split
          · rfl
          · exact hinv b hb hvb
        · exact hinv b hb hvb
      · have hb' : b = ag.freelist i := by simpa using hb
        subst hb'
        rw [if_pos hvb]
        simp [set_bmap]
    split
    · exact hinv2
    · exact ih _ _ _ _ _ hinv2

/-- C8.  The AGFL walk of `scan_freelist`, whenever the freelist is
actually walked (non-zero `agf_flcount` and, in no-modify mode,
in-range `agf_flfirst`/`agf_fllast`): every walked block number that is
a valid AG block is `XR_E_FREE` in the resulting map; the
count-mismatch warning fires exactly when the walked count differs from
the AGF's `agf_flcount` (and is only a warning — the scan continues and
still accounts the walk); and the walked count is added to the global
free-block counter `fdblocks`. -/
theorem scan_freelist_spec (mp : MpAlloc) (ag : AgInput) (st : ScanSt)
    (h0 : ag.agf_flcount ≠ 0)
    (h1 : ¬(ag.noModify = true ∧
      (ag.agf_flfirst ≥ ag.agflSize ∨ ag.agf_fllast ≥ ag.agflSize))) :
    (∀ b ∈ (scan_freelist mp ag st).visited, verify_agbno mp.agSize b = true →
      (scan_freelist mp ag st).st.m b = .XR_E_FREE) ∧
    ((scan_freelist mp ag st).countMismatch =
      decide ((scan_freelist mp ag st).count ≠ ag.agf_flcount)) ∧
    ((scan_freelist mp ag st).countMismatch = true →
      st.warns + 1 ≤ (scan_freelist mp ag st).st.warns) ∧
    ((scan_freelist mp ag st).st.cnts.fdblocks =
      st.cnts.fdblocks + (scan_freelist mp ag st).count) := by
  unfold scan_freelist
  set stX := (if ag.hdrDistinct = true then
    ({ st with m := set_bmap st.m ag.agflBlock XRState.XR_E_FS_MAP } : ScanSt) else st) with hstX
  have hwX : stX.warns = st.warns := by rw [hstX]; split <;> rfl
  have hcX : stX.cnts = st.cnts := by rw [hstX]; split <;> rfl
  simp only [if_neg h0, if_neg h1]
  have hmarks := scan_freelist_walk_marks mp ag ag.agflSize ag.agf_flfirst stX.m 0
    stX.warns [] (by intro b hb; simp at hb)
  have hwm := scan_freelist_walk_warns_mono mp ag ag.agflSize ag.agf_flfirst stX.m 0
    stX.warns []
  rcases hW : scan_freelist_walk mp ag ag.agflSize ag.agf_flfirst stX.m 0 stX.warns []
    with ⟨wm, wcount, wwarns, wvis⟩
  rw [hW] at hmarks hwm
  dsimp only at hmarks hwm ⊢
  refine ⟨hmarks, by simp, ?_, by rw [hcX]⟩
  intro hmism
  simp only [decide_eq_true_eq] at hmism
  rw [if_pos hmism]
  omega

/-- C8 (witness).  The walk of spec scenario 6: the AGF claims
`flcount = 5` but the list yields 4 blocks (5, 6, 7, 8); all four are
marked `XR_E_FREE`, the mismatch warning fires, and `fdblocks` grows by
the walked count 4. -/
theorem scan_freelist_spec_witness :
    (∀ b ∈ (scan_freelist cexMp cexAgfl cexSt0).visited,
      verify_agbno cexMp.agSize b = true →
      (scan_freelist cexMp cexAgfl cexSt0).st.m b = .XR_E_FREE) ∧
    ((scan_freelist cexMp cexAgfl cexSt0).countMismatch =
      decide ((scan_freelist cexMp cexAgfl cexSt0).count ≠ cexAgfl.agf_flcount)) ∧
    ((scan_freelist cexMp cexAgfl cexSt0).countMismatch = true →
      cexSt0.warns + 1 ≤ (scan_freelist cexMp cexAgfl cexSt0).st.warns) ∧
    ((scan_freelist cexMp cexAgfl cexSt0).st.cnts.fdblocks =
      cexSt0.cnts.fdblocks + (scan_freelist cexMp cexAgfl cexSt0).count) :=
  scan_freelist_spec cexMp cexAgfl cexSt0 (by decide) (by decide)

/-- Frame property of the finobt block cross-check loop
(scan.c:1084-1121): every block either keeps its state, or is set to
`XR_E_INO` and was `XR_E_UNKNOWN` or `XR_E_INUSE_FS` before. -/
theorem scan_finobt_chunk_blocks_frame (p : InoParams) (r : InobtRec) :
    ∀ (js : List Nat) (m : Bmap) (suspect warns b : Nat),
      get_bmap (scan_finobt_chunk_blocks p r js m suspect warns).m b = get_bmap m b ∨
      (get_bmap (scan_finobt_chunk_blocks p r js m suspect warns).m b = .XR_E_INO ∧
        (get_bmap m b = .XR_E_UNKNOWN ∨ get_bmap m b = .XR_E_INUSE_FS)) := by
  intro js
  induction js with
  | nil => intro m suspect warns b; exact Or.inl rfl
  | cons j rest ih =>
    intro m suspect warns b
    simp only [scan_finobt_chunk_blocks]
    split
    · split
      · exact ih m (suspect + 1) (warns + 1) b
      · exact ih m suspect warns b
    · split
      · exact ih m suspect warns b
      · split
        · rename_i hc
          rcases ih (set_bmap m ((r.ir_startino + j) / p.inopblock) .XR_E_INO)
              (suspect + 1) (warns + 1) b with h | ⟨h1, h2⟩
          · by_cases hb : b = (r.ir_startino + j) / p.inopblock
            · subst hb
              right
              refine ⟨?_, ?_⟩
              · rw [h]; simp [get_bmap, set_bmap]
              · rcases hc with hu | ⟨hf, _⟩
                · exact Or.inl hu
                · exact Or.inr hf
            · left
              rw [h]; simp [get_bmap, set_bmap, hb]
          · by_cases hb : b = (r.ir_startino + j) / p.inopblock
            · subst hb
              right
              refine ⟨h1, ?_⟩
              rcases hc with hu | ⟨hf, _⟩
              · exact Or.inl hu
              · exact Or.inr hf
            · right
              refine ⟨h1, ?_⟩
              have he : get_bmap
                  (set_bmap m ((r.ir_startino + j) / p.inopblock) .XR_E_INO) b =
                  get_bmap m b := by
                simp [get_bmap, set_bmap, hb]
              rw [he] at h2; exact h2
        · exact Or.inl rfl

/-- C5 (counterexample).  The undiscovered finobt record of spec
scenario 5 — chunk at inode 2048, no in-core counterpart — is warned
about and imported, but its processing DOES change block states: the
cross-check loop at scan.c:1084-1121 runs before the in-core lookup and
sets every untracked chunk block (here block 128) from `XR_E_UNKNOWN`
to `XR_E_INO`, refuting the claim's "changes no block's state". -/
theorem scan_finobt_undiscovered_cex :
    (scan_single_finobt_chunk cexFinoP cexFinoRec none 0 cexM0).undiscovered = true ∧
    (scan_single_finobt_chunk cexFinoP cexFinoRec none 0 cexM0).imported = true ∧
    get_bmap (scan_single_finobt_chunk cexFinoP cexFinoRec none 0 cexM0).m 128 =
      .XR_E_INO ∧
    get_bmap cexM0 128 ≠ .XR_E_INO := by decide

/-- C5 (amended).  For a free-inode-tree record with no authoritative
in-core counterpart (`firstRec = none`) that passes the bounds check
(`skip = false`): unless the block cross-check abandons the record, the
"undiscovered finobt record" warning fires and the chunk is imported;
if the cross-check bails, the record is not imported.  Block states are
NOT left unchanged in general: each block either keeps its state or is
set to `XR_E_INO`, and only from `XR_E_UNKNOWN` or `XR_E_INUSE_FS`. -/
theorem scan_finobt_undiscovered_spec (p : InoParams) (r : InobtRec)
    (suspect : Nat) (m : Bmap)
    (hskip : (verify_single_ino_chunk_align p r.ir_startino suspect).2.1 = false) :
    ((scan_single_finobt_chunk p r none suspect m).bailed = false →
      (scan_single_finobt_chunk p r none suspect m).undiscovered = true ∧
      (scan_single_finobt_chunk p r none suspect m).imported = true) ∧
    ((scan_single_finobt_chunk p r none suspect m).bailed = true →
      (scan_single_finobt_chunk p r none suspect m).imported = false) ∧
    (∀ b, get_bmap (scan_single_finobt_chunk p r none suspect m).m b = get_bmap m b ∨
      (get_bmap (scan_single_finobt_chunk p r none suspect m).m b = .XR_E_INO ∧
        (get_bmap m b = .XR_E_UNKNOWN ∨ get_bmap m b = .XR_E_INUSE_FS))) := by
  simp only [scan_single_finobt_chunk, hskip, Bool.false_eq_true, if_false]
  by_cases hrun : r.ir_startino % p.inopblock = 0 ∧
      (verify_single_ino_chunk_align p r.ir_startino suspect).1 = 0
  · simp only [if_pos hrun]
    have hframe := scan_finobt_chunk_blocks_frame p r (inoChunkBlockOffsets p) m
      (verify_single_ino_chunk_align p r.ir_startino suspect).1
      (verify_single_ino_chunk_align p r.ir_startino suspect).2.2
    cases hb : (scan_finobt_chunk_blocks p r (inoChunkBlockOffsets p) m
        (verify_single_ino_chunk_align p r.ir_startino suspect).1
        (verify_single_ino_chunk_align p r.ir_startino suspect).2.2).bailed
    · simp only [hb, Bool.false_eq_true, if_false]
      exact ⟨fun _ => ⟨by trivial, by trivial⟩, fun h => by simp at h, hframe⟩
    · simp only [hb, if_true]
      exact ⟨fun h => by simp at h, fun _ => by trivial, hframe⟩
  · simp only [if_neg hrun]
    exact ⟨fun _ => ⟨by trivial, by trivial⟩, fun h => by simp at h, fun b => Or.inl rfl⟩

/-- C5 (witness for the amended theorem): applied at the undiscovered
record of spec scenario 5 — the alignment/bounds check does not skip,
and block 128's state obeys the frame disjunction. -/
theorem scan_finobt_undiscovered_spec_witness :
    (verify_single_ino_chunk_align cexFinoP cexFinoRec.ir_startino 0).2.1 = false ∧
    (get_bmap (scan_single_finobt_chunk cexFinoP cexFinoRec none 0 cexM0).m 128 =
        get_bmap cexM0 128 ∨
      (get_bmap (scan_single_finobt_chunk cexFinoP cexFinoRec none 0 cexM0).m 128 =
          .XR_E_INO ∧
        (get_bmap cexM0 128 = .XR_E_UNKNOWN ∨ get_bmap cexM0 128 = .XR_E_INUSE_FS))) :=
  ⟨by decide,
    (scan_finobt_undiscovered_spec cexFinoP cexFinoRec 0 cexM0 (by decide)).2.2 128⟩
